import Mathlib

/-!
A shallow embedding of the discourse/stylometric analysis engine of
scripts/analyze_abstracts.py, with theorems settling the frozen claims
about it.

Python regular-expression scanning is modelled by hand-written
character-list scanners that follow the semantics of the concrete
patterns in the source (leftmost, non-overlapping matches; greedy and
lazy repetition resolved the way they resolve for these particular
patterns).  Word characters and whitespace use the ASCII ranges, which
cover the texts this engine handles.  Python floats are modelled by
exact rationals, or by reals where math.log and the exponent 0.5 occur;
round(x, k) is modelled by half-up rounding via round, which agrees
with the float rounding of the source at every input considered here.
Printing and file input/output from the source are not modelled; fields
of the output report that exist only for display (formatted strings)
are either reduced to their numeric content or dropped, as noted at the
definitions concerned.
-/

namespace AbstractAnalysis

/-- Python word character, ASCII range. -/
def isWordChar (c : Char) : Bool := c.isAlpha || c.isDigit || c = '_'

/-- Python whitespace for pattern and string methods, ASCII range. -/
def isPySpace (c : Char) : Bool :=
  c = ' ' || c = '\t' || c = '\n' || c = '\r' || c = '\x0b' || c = '\x0c'

/-- Lowercasing a character list, as Python str.lower on ASCII text. -/
def lowerChars (l : List Char) : List Char := l.map Char.toLower

/-- Python str.lower. -/
def pyLower (s : String) : String := String.mk (lowerChars s.data)

/-- Python str.strip with no argument: trim whitespace on both ends. -/
def pyStrip (l : List Char) : List Char :=
  ((l.dropWhile isPySpace).reverse.dropWhile isPySpace).reverse

/-- Structural engine for pyWords; the fuel argument, initialized to
the text length, only forces termination (each step consumes at least
one character). -/
def pyWordsFuel : Nat → List Char → List (List Char)
  | 0, _ => []
  | _, [] => []
  | fuel + 1, c :: cs =>
    if isPySpace c then pyWordsFuel fuel cs
    else
      let w := cs.takeWhile (fun d => !isPySpace d)
      (c :: w) :: pyWordsFuel fuel (cs.drop w.length)

/-- Python str.split with no argument: maximal non-whitespace runs. -/
def pyWords (l : List Char) : List (List Char) := pyWordsFuel l.length l

/-- Maximal runs of word characters: the whole-word tokens that anchored
patterns of the shape word-boundary, class-run, word-boundary can match. -/
def wordRunsFuel : Nat → List Char → List (List Char)
  | 0, _ => []
  | _, [] => []
  | fuel + 1, c :: cs =>
    if isWordChar c then
      let w := cs.takeWhile isWordChar
      (c :: w) :: wordRunsFuel fuel (cs.drop w.length)
    else wordRunsFuel fuel cs

/-- Maximal word-character runs of a text. -/
def wordRuns (l : List Char) : List (List Char) := wordRunsFuel l.length l

/-- Auxiliary for countSub: non-overlapping occurrence count, scanning
left to right, resuming after each match (Python str.count). -/
def countSubAux (pat : List Char) : Nat → List Char → Nat
  | 0, _ => 0
  | _, [] => 0
  | fuel + 1, c :: cs =>
    if pat.isPrefixOf (c :: cs) then 1 + countSubAux pat fuel (cs.drop (pat.length - 1))
    else countSubAux pat fuel cs

/-- Python str.count: non-overlapping occurrences; an empty pattern is
counted once per gap, length + 1 times. -/
def countSub (pat l : List Char) : Nat :=
  if pat.isEmpty then l.length + 1 else countSubAux pat l.length l

/-- Python substring membership (the in operator on str). -/
def hasSub (pat : List Char) : List Char → Bool
  | [] => pat.isEmpty
  | c :: cs => pat.isPrefixOf (c :: cs) || hasSub pat cs

/-- Index of the first occurrence of pat, if any (re.search position for
a literal pattern). -/
def findSub (pat : List Char) : List Char → Option Nat
  | [] => if pat.isEmpty then some 0 else none
  | c :: cs =>
    if pat.isPrefixOf (c :: cs) then some 0
    else (findSub pat cs).map (· + 1)

/-- Python str.replace: replace each non-overlapping occurrence, left to
right.  Assumes a non-empty pattern, as at every call site here. -/
def replaceAllAux (pat rep : List Char) : Nat → List Char → List Char
  | 0, l => l
  | _, [] => []
  | fuel + 1, c :: cs =>
    if pat.isPrefixOf (c :: cs) then rep ++ replaceAllAux pat rep fuel (cs.drop (pat.length - 1))
    else c :: replaceAllAux pat rep fuel cs

/-- Python str.replace, guarded so that an empty pattern (never used by
the source) leaves the text unchanged. -/
def replaceAll (pat rep l : List Char) : List Char :=
  if pat.isEmpty then l else replaceAllAux pat rep l.length l

/-- The placeholder protecting decimal points in split_sentences. -/
def decimalMark : List Char := "DECIMAL_PLACEHOLDER".data

/-- Models re.sub of digit, dot, digit by digit, placeholder, digit in
split_sentences: left-to-right, non-overlapping. -/
def protectDecimals : List Char → List Char
  | a :: '.' :: b :: rest =>
    if a.isDigit && b.isDigit then a :: (decimalMark ++ b :: protectDecimals rest)
    else a :: protectDecimals ('.' :: b :: rest)
  | c :: cs => c :: protectDecimals cs
  | [] => []

/-- Models the inverse re.sub restoring digit, dot, digit in
split_sentences. -/
def restoreDecimalsFuel : Nat → List Char → List Char
  | 0, l => l
  | _, [] => []
  | fuel + 1, c :: cs =>
    if c.isDigit && decimalMark.isPrefixOf cs then
      match cs.drop decimalMark.length with
      | d :: _ =>
        if d.isDigit then
          c :: '.' :: d :: restoreDecimalsFuel fuel (cs.drop (decimalMark.length + 1))
        else c :: restoreDecimalsFuel fuel cs
      | [] => c :: restoreDecimalsFuel fuel cs
    else c :: restoreDecimalsFuel fuel cs

/-- Restores digit, dot, digit around the placeholder. -/
def restoreDecimals (l : List Char) : List Char := restoreDecimalsFuel l.length l

/-- Sentence-terminating punctuation for the splitting pattern. -/
def sentencePunct (c : Char) : Bool := c = '.' || c = '!' || c = '?'

/-- Models re.split on whitespace preceded by sentence punctuation and
followed by an uppercase letter: cur is the reversed current piece. -/
def splitSentencesAux (cur : List Char) : Nat → List Char → List (List Char)
  | 0, _ => [cur.reverse]
  | _, [] => [cur.reverse]
  | fuel + 1, c :: cs =>
    if sentencePunct c then
      let ws := cs.takeWhile isPySpace
      if ws.length > 0 &&
          (match cs.drop ws.length with | d :: _ => d.isUpper | [] => false) then
        (c :: cur).reverse :: splitSentencesAux [] fuel (cs.drop ws.length)
      else splitSentencesAux (c :: cur) fuel cs
    else splitSentencesAux (c :: cur) fuel cs

/-- The sentence splitter of the source: protect a closed abbreviation
list and decimal numbers with placeholders, split on sentence-ending
punctuation followed by whitespace and an uppercase letter, restore the
placeholders, trim, and drop empty pieces. -/
def split_sentences (text : String) : List String :=
  let t := replaceAll "e.g.".data "EG_PLACEHOLDER".data text.data
  let t := replaceAll "i.e.".data "IE_PLACEHOLDER".data t
  let t := replaceAll "et al.".data "ETAL_PLACEHOLDER".data t
  let t := replaceAll "Fig.".data "FIG_PLACEHOLDER".data t
  let t := replaceAll "Ext.".data "EXT_PLACEHOLDER".data t
  let t := protectDecimals t
  let sents := splitSentencesAux [] t.length t
  let restored := sents.map (fun s =>
    let s := replaceAll "EG_PLACEHOLDER".data "e.g.".data s
    let s := replaceAll "IE_PLACEHOLDER".data "i.e.".data s
    let s := replaceAll "ETAL_PLACEHOLDER".data "et al.".data s
    let s := replaceAll "FIG_PLACEHOLDER".data "Fig.".data s
    let s := replaceAll "EXT_PLACEHOLDER".data "Ext.".data s
    let s := restoreDecimals s
    pyStrip s)
  (restored.filter (fun s => s ≠ [])).map String.mk

/-- Python round(x, k) modelled over the rationals: half-up rounding of
x scaled by ten to the k.  Python rounds the underlying binary floats
half to even; the two agree at every input arising in this development. -/
def roundQ (k : Nat) (x : ℚ) : ℚ := ((x * 10 ^ k + 1 / 2).floor : ℤ) / 10 ^ k

/-- Sum of a list of naturals. -/
def natSum (l : List Nat) : Nat := l.foldl (· + ·) 0

/-- Sum of a list of rationals. -/
def ratSum (l : List ℚ) : ℚ := l.foldl (· + ·) 0

/-! Generic scanning in the style of re.finditer: try a matcher at every
position, left to right; on success record the start index and the
captured group and resume after the whole match.  The matcher receives
the reversed already-scanned text (for lookbehind and word boundaries)
and the remaining text, and returns the total matched length and the
capture. -/

/-- Drop a literal pattern from the head of the text, if present. -/
def dropLit? : List Char → List Char → Option (List Char)
  | [], rest => some rest
  | _, [] => none
  | p :: ps, c :: cs => if p = c then dropLit? ps cs else none

/-- First alternative whose literal matches at the head; the concrete
alternations used below are mutually exclusive at any given position, so
committing to the first match loses no Python match. -/
def dropAlt? (alts : List (List Char)) (l : List Char) : Option (List Char) :=
  match alts with
  | [] => none
  | a :: as =>
    match dropLit? a l with
    | some r => some r
    | none => dropAlt? as l

/-- Whitespace-plus: at least one whitespace character, consumed
maximally (no following element of any pattern here is whitespace, so
greedy backtracking never changes the outcome). -/
def dropWs1? (l : List Char) : Option (List Char) :=
  match l with
  | c :: cs => if isPySpace c then some (cs.dropWhile isPySpace) else none
  | [] => none

/-- Word-character-plus with capture: the maximal nonempty word run. -/
def takeWord1? (l : List Char) : Option (List Char × List Char) :=
  match l with
  | c :: cs =>
    if isWordChar c then some (c :: cs.takeWhile isWordChar, cs.dropWhile isWordChar)
    else none
  | [] => none

/-- First alternative matching at the head with a trailing word
boundary; on a boundary failure the next alternative is tried at the
same position, exactly as the backtracking engine does. -/
def dropAltBounded? (alts : List (List Char)) (l : List Char) : Option (List Char × List Char) :=
  match alts with
  | [] => none
  | a :: as =>
    match dropLit? a l with
    | some r =>
      if (match r with | d :: _ => isWordChar d | [] => false) then dropAltBounded? as l
      else some (a, r)
    | none => dropAltBounded? as l

/-- The finditer loop: rev is the reversed scanned prefix, i the current
index.  Every matcher used here consumes at least one character on
success, so the next scan position i plus the matched length, floored
at one step as finditer floors it, is just i plus the matched
length. -/
def scanIter (m : List Char → List Char → Option (Nat × List Char)) :
    Nat → List Char → List Char → Nat → List (Nat × List Char)
  | 0, _, _, _ => []
  | _, _, [], _ => []
  | fuel + 1, rev, c :: cs, i =>
    match m rev (c :: cs) with
    | some (n, cap) =>
      (i, cap) ::
        scanIter m fuel (((c :: cs).take n).reverse ++ rev) (cs.drop (n - 1)) (i + max n 1)
    | none => scanIter m fuel (c :: rev) cs (i + 1)

/-- All matches of a matcher over a text, with start indices. -/
def finditer (m : List Char → List Char → Option (Nat × List Char))
    (text : List Char) : List (Nat × List Char) :=
  scanIter m text.length [] text 0

/-! Verb extraction (VERB_PATTERNS, VERB_NORMALIZE, STOP_VERBS,
extract_verbs). -/

/-- Pattern (a): Here or here, whitespace, we, whitespace, captured
word.  There is no word boundary before Here in the source pattern. -/
def matchHereWe (_ : List Char) (rest : List Char) : Option (Nat × List Char) := do
  let r1 ← dropAlt? ["Here".data, "here".data] rest
  let r2 ← dropWs1? r1
  let r3 ← dropLit? "we".data r2
  let r4 ← dropWs1? r3
  let (w, r5) ← takeWord1? r4
  pure (rest.length - r5.length, w)

/-- The fixed-width negative lookbehind of pattern (b): the five
characters before the match must not be Here or here plus one
whitespace. -/
def hereLookbehind (rev : List Char) : Bool :=
  match rev with
  | s :: 'e' :: 'r' :: 'e' :: h :: _ => isPySpace s && (h = 'H' || h = 'h')
  | _ => false

/-- Pattern (b): word boundary, We, whitespace, captured word, not
preceded by Here plus whitespace. -/
def matchWe (rev : List Char) (rest : List Char) : Option (Nat × List Char) :=
  if (match rev with | c :: _ => isWordChar c | [] => false) || hereLookbehind rev then none
  else do
    let r1 ← dropLit? "We".data rest
    let r2 ← dropWs1? r1
    let (w, r3) ← takeWord1? r2
    pure (rest.length - r3.length, w)

/-- Pattern (c): Our, This or The, a subject noun (with the optional
plural s expanded greedily, longer form first), then a captured word. -/
def matchSubjectVerb (_ : List Char) (rest : List Char) : Option (Nat × List Char) := do
  let r1 ← dropAlt? ["Our".data, "This".data, "The".data] rest
  let r2 ← dropWs1? r1
  let r3 ← dropAlt? (["approach", "method", "results", "result", "work", "study",
    "findings", "finding", "strategy"].map String.data) r2
  let r4 ← dropWs1? r3
  let (w, r5) ← takeWord1? r4
  pure (rest.length - r5.length, w)

/-- The closed gerund list of pattern (d). -/
def impactGerunds : List (List Char) :=
  ["enabling", "establishing", "opening", "revealing", "overcoming",
   "introducing", "unlocking", "harnessing", "achieving"].map String.data

/-- Pattern (d): thereby, thus, or a comma, whitespace, then a gerund
from the closed list with a trailing word boundary. -/
def matchImpactGerund (_ : List Char) (rest : List Char) : Option (Nat × List Char) := do
  let r1 ← dropAlt? ["thereby".data, "thus".data, ",".data] rest
  let r2 ← dropWs1? r1
  let (g, r3) ← dropAltBounded? impactGerunds r2
  pure (rest.length - r3.length, g)

/-- VERB_PATTERNS of the source, in order. -/
def VERB_PATTERNS : List (List Char → List Char → Option (Nat × List Char)) :=
  [matchHereWe, matchWe, matchSubjectVerb, matchImpactGerund]

/-- VERB_NORMALIZE of the source: inflected to base form. -/
def VERB_NORMALIZE : List (String × String) :=
  [("demonstrates", "demonstrate"), ("demonstrated", "demonstrate"),
   ("shows", "show"), ("showed", "show"), ("shown", "show"),
   ("achieves", "achieve"), ("achieved", "achieve"),
   ("enables", "enable"), ("enabled", "enable"), ("enabling", "enable"),
   ("reveals", "reveal"), ("revealed", "reveal"), ("revealing", "reveal"),
   ("overcomes", "overcome"), ("overcame", "overcome"), ("overcoming", "overcome"),
   ("introduces", "introduce"), ("introduced", "introduce"), ("introducing", "introduce"),
   ("establishes", "establish"), ("established", "establish"), ("establishing", "establish"),
   ("presents", "present"), ("presented", "present"), ("presenting", "present"),
   ("reports", "report"), ("reported", "report"), ("reporting", "report"),
   ("develops", "develop"), ("developed", "develop"), ("developing", "develop"),
   ("provides", "provide"), ("provided", "provide"), ("providing", "provide"),
   ("opens", "open"), ("opened", "open"), ("opening", "open"),
   ("unlocks", "unlock"), ("unlocked", "unlock"), ("unlocking", "unlock"),
   ("harnesses", "harness"), ("harnessed", "harness"), ("harnessing", "harness"),
   ("uses", "use"), ("used", "use"), ("using", "use"),
   ("designs", "design"), ("designed", "design"), ("designing", "design"),
   ("proves", "prove"), ("proved", "prove"), ("proving", "prove")]

/-- STOP_VERBS of the source. -/
def STOP_VERBS : List String :=
  ["is", "are", "was", "were", "be", "been", "being",
   "have", "has", "had", "having",
   "do", "does", "did",
   "can", "could", "will", "would", "shall", "should", "may", "might",
   "also", "further", "not", "here",
   "substantially", "recently", "simultaneously", "previously",
   "including", "posing", "making", "focusing", "arising",
   "offering", "requiring", "leading", "limiting", "resulting"]

/-- The per-match step of extract_verbs: lowercase the captured group,
normalize it, and keep it unless it is a stop verb or too short. -/
def processVerb (w : List Char) : Option String :=
  let v0 := String.mk (lowerChars w)
  let v := (VERB_NORMALIZE.lookup v0).getD v0
  if STOP_VERBS.contains v || v.length ≤ 2 then none else some v

/-- The verbs emitted by one pattern family, instrumented with the
start index of each match (the source keeps only the verb; the index is
match.start(), which the scan determines anyway). -/
def verbMatchesOf (m : List Char → List Char → Option (Nat × List Char))
    (text : String) : List (Nat × String) :=
  (finditer m text.data).filterMap (fun p => (processVerb p.2).map (fun v => (p.1, v)))

/-- extract_verbs with match positions: the four pattern families are
scanned one after the other, each over the whole text. -/
def extract_verbs_pos (text : String) : List (Nat × String) :=
  (VERB_PATTERNS.map (fun m => verbMatchesOf m text)).flatten

/-- extract_verbs of the source: the base-form verbs in the order the
pattern loop emits them. -/
def extract_verbs (text : String) : List String :=
  (extract_verbs_pos text).map Prod.snd

/-! Opening and closing sentence classifiers. -/

/-- Existence of a match at some position (re.search for an unanchored
pattern): try the predicate on every suffix. -/
def anyPos (f : List Char → Bool) : List Char → Bool
  | [] => f []
  | c :: cs => f (c :: cs) || anyPos f cs

/-- Existence of an alternative matching after a gap of non-newline
characters (the dot-star idiom inside several search patterns; for a
pure existence check greedy and lazy closure agree). -/
def gapKeywordExists (alts : List (List Char)) : List Char → Bool
  | [] => false
  | c :: cs =>
    alts.any (fun a => a.isPrefixOf (c :: cs)) || (!(c = '\n') && gapKeywordExists alts cs)

/-- Opening rule problem-first: despite, although, or the plus a
challenge noun, anchored at the start. -/
def openingProblem (s : List Char) : Bool :=
  ("despite".data.isPrefixOf s) || ("although".data.isPrefixOf s) ||
  (match dropLit? "the".data s with
   | some r =>
     match dropWs1? r with
     | some r2 =>
       ["challenge", "problem", "limitation", "lack", "difficulty"].any
         (fun w => w.data.isPrefixOf r2)
     | none => false
   | none => false)

/-- Opening rule bold-claim: the ability, achieving, controlling or
harnessing, anchored at the start. -/
def openingBold (s : List Char) : Bool :=
  (match dropLit? "the".data s with
   | some r =>
     match dropWs1? r with
     | some r2 => "ability".data.isPrefixOf r2
     | none => false
   | none => false) ||
  ("achieving".data.isPrefixOf s) || ("controlling".data.isPrefixOf s) ||
  ("harnessing".data.isPrefixOf s)

/-- Character class of the subject clause in the function-first rule:
word characters, whitespace, comma, hyphen. -/
def funcClassChar (c : Char) : Bool :=
  isWordChar c || isPySpace c || c = ',' || c = '-'

/-- Opening rule function-first: a word character, a nonempty subject
clause over the class, whitespace, then one of the offering verbs.  The
match condition is expressed as the existence of a verb position with
the required shape before it. -/
def openingFunction (s : List Char) : Bool :=
  match s with
  | [] => false
  | c :: _ =>
    isWordChar c &&
    (List.range (s.length + 1)).any (fun p =>
      decide (3 ≤ p) &&
      (["offer", "provide", "enable", "allow", "permit"].any
        (fun v => v.data.isPrefixOf (s.drop p))) &&
      (match s.drop (p - 1) with | d :: _ => isPySpace d | [] => false) &&
      ((s.drop 1).take (p - 2)).all funcClassChar)

/-- classify_opening of the source: ordered rules, first match wins,
applied to the lowercased and stripped sentence. -/
def classify_opening (sentence : String) : String :=
  let s := pyStrip (lowerChars sentence.data)
  if openingProblem s then "problem-first"
  else if openingBold s then "bold-claim"
  else if openingFunction s then "function-first"
  else "object-first"

/-- Closing pathway alternative one: open, optional s, whitespace,
optional a plus whitespace, pathway. -/
def pathwayAlt1 (l : List Char) : Bool :=
  (do
    let r1 ← dropLit? "open".data l
    let r1 := (dropLit? "s".data r1).getD r1
    let r2 ← dropWs1? r1
    let r2 := ((do
      let x ← dropLit? "a".data r2
      dropWs1? x : Option (List Char))).getD r2
    dropLit? "pathway".data r2).isSome

/-- Closing pathway alternative two: pave, optional s, whitespace, the,
whitespace, way. -/
def pathwayAlt2 (l : List Char) : Bool :=
  (do
    let r1 ← dropLit? "pave".data l
    let r1 := (dropLit? "s".data r1).getD r1
    let r2 ← dropWs1? r1
    let r3 ← dropLit? "the".data r2
    let r4 ← dropWs1? r3
    dropLit? "way".data r4).isSome

/-- Closing pathway alternative three: open, optional s, whitespace,
any gap, then route, prospect, door or possibilit. -/
def pathwayAlt3 (l : List Char) : Bool :=
  (match
    (do
      let r1 ← dropLit? "open".data l
      let r1 := (dropLit? "s".data r1).getD r1
      dropWs1? r1 : Option (List Char)) with
   | some r2 =>
     gapKeywordExists (["route", "prospect", "door", "possibilit"].map String.data) r2 ||
     (["route", "prospect", "door", "possibilit"].map String.data).any
       (fun a => a.isPrefixOf r2)
   | none => false)

/-- Closing rule pathway. -/
def closingPathway (s : List Char) : Bool :=
  anyPos (fun l => pathwayAlt1 l || pathwayAlt2 l || pathwayAlt3 l) s

/-- Closing rule promise. -/
def closingPromise (s : List Char) : Bool :=
  hasSub "promis".data s || hasSub "potential".data s || hasSub "exciting".data s ||
  hasSub "great promise".data s

/-- Closing rule paradigm. -/
def closingParadigm (s : List Char) : Bool :=
  hasSub "establish".data s || hasSub "paradigm".data s ||
  anyPos (fun l =>
    (do
      let r1 ← dropLit? "new".data l
      let r2 ← dropWs1? r1
      dropLit? "platform".data r2).isSome) s ||
  hasSub "framework".data s ||
  anyPos (fun l =>
    (do
      let r1 ← dropLit? "make".data l
      let r1 := (dropLit? "s".data r1).getD r1
      let r2 ← dropWs1? r1
      dropLit? "this".data r2).isSome) s

/-- Closing rule application. -/
def closingApplication (s : List Char) : Bool :=
  hasSub "application".data s || hasSub "sensing".data s || hasSub "imaging".data s ||
  hasSub "device".data s || hasSub "technolog".data s || hasSub "commerc".data s ||
  anyPos (fun l =>
    (do
      let r1 ← dropLit? "future".data l
      let r2 ← dropWs1? r1
      dropLit? "direction".data r2).isSome) s

/-- Closing rule quantitative-recap: digits dash fold, digits percent,
or factor of. -/
def closingQuant (s : List Char) : Bool :=
  anyPos (fun l =>
    match l with
    | c :: cs =>
      c.isDigit && "-fold".data.isPrefixOf (cs.dropWhile Char.isDigit)
    | [] => false) s ||
  anyPos (fun l =>
    match l with
    | c :: cs =>
      c.isDigit &&
      (match (cs.dropWhile Char.isDigit).dropWhile isPySpace with
       | d :: _ => d = '%'
       | [] => false)
    | [] => false) s ||
  anyPos (fun l =>
    (do
      let r1 ← dropLit? "factor".data l
      let r2 ← dropWs1? r1
      dropLit? "of".data r2).isSome) s

/-- Closing rule outlook. -/
def closingOutlook (s : List Char) : Bool :=
  hasSub "avenue".data s || hasSub "enable".data s ||
  anyPos (fun l =>
    (dropLit? "novel".data l).isSome &&
    (match dropLit? "novel".data l with
     | some r => gapKeywordExists ["science".data] r || "science".data.isPrefixOf r
     | none => false)) s ||
  anyPos (fun l =>
    (match dropLit? "suitable".data l with
     | some r => gapKeywordExists ["platform".data] r || "platform".data.isPrefixOf r
     | none => false)) s ||
  anyPos (fun l =>
    (match dropLit? "expand".data l with
     | some r => gapKeywordExists ["scope".data] r || "scope".data.isPrefixOf r
     | none => false)) s

/-- classify_closing of the source: ordered rules, first match wins,
applied to the lowercased and stripped sentence. -/
def classify_closing (sentence : String) : String :=
  let s := pyStrip (lowerChars sentence.data)
  if closingPathway s then "pathway"
  else if closingPromise s then "promise"
  else if closingParadigm s then "paradigm"
  else if closingApplication s then "application"
  else if closingQuant s then "quantitative-recap"
  else if closingOutlook s then "outlook"
  else "other"

/-! Hedging detection (HEDGE_LEXICON, detect_hedges, hedge_density). -/

/-- First alternative that matches at the head of the text with a
trailing word boundary, returning the matched length; a boundary
failure falls through to the next alternative, as backtracking does. -/
def boundedAltLen? (alts : List (List Char)) (l : List Char) : Option Nat :=
  match alts with
  | [] => none
  | a :: as =>
    if a.isPrefixOf l &&
        (match l.drop a.length with | d :: _ => !isWordChar d | [] => true) then
      some a.length
    else boundedAltLen? as l

/-- Non-overlapping count of whole-word occurrences of one of the
alternatives (patterns of the shape word boundary, literal, word
boundary); prevWord tracks whether the previous character was a word
character, so that the leading boundary can be checked. -/
def boundedAltCountAux (alts : List (List Char)) : Nat → Bool → List Char → Nat
  | 0, _, _ => 0
  | _, _, [] => 0
  | fuel + 1, prevWord, c :: cs =>
    match (if prevWord then none else boundedAltLen? alts (c :: cs)) with
    | some n => 1 + boundedAltCountAux alts fuel true (cs.drop (n - 1))
    | none => boundedAltCountAux alts fuel (isWordChar c) cs

/-- Count of whole-word occurrences of a literal (every alternative
used here ends in a word character, so after a match the previous
character is a word character). -/
def boundedCount (pat : List Char) (l : List Char) : Nat :=
  boundedAltCountAux [pat] l.length false l

/-- Count of whole-word occurrences of one of several alternatives. -/
def boundedAltCount (alts : List (List Char)) (l : List Char) : Nat :=
  boundedAltCountAux alts l.length false l

/-- The can pattern of the ability category: word boundary, can, word
boundary, negative lookahead not. -/
def canHedgeAux : Nat → Bool → List Char → Nat
  | 0, _, _ => 0
  | _, _, [] => 0
  | fuel + 1, prevWord, c :: cs =>
    if !prevWord && "can".data.isPrefixOf (c :: cs) &&
        (match (c :: cs).drop 3 with | d :: _ => !isWordChar d | [] => true) &&
        !("not".data.isPrefixOf ((c :: cs).drop 3)) then
      1 + canHedgeAux fuel true (cs.drop 2)
    else canHedgeAux fuel (isWordChar c) cs

/-- Count for the can pattern. -/
def canHedgeCount (l : List Char) : Nat := canHedgeAux l.length false l

/-- The keyword alternatives of the opening hedging pattern, with the
greedy optional plural expanded longer form first. -/
def openingHedgeKeys : List (List Char) :=
  ["avenues", "avenue", "doors", "door", "possibilit"].map String.data

/-- Lazy gap search for the dot-star-question idiom: the smallest
number of non-newline characters to skip before one of the alternatives
matches with a trailing word boundary; returns the total consumed
length from the current position. -/
def lazyGapFind (alts : List (List Char)) : List Char → Option Nat
  | [] => none
  | c :: cs =>
    match boundedAltLen? alts (c :: cs) with
    | some n => some n
    | none => if c = '\n' then none else (lazyGapFind alts cs).map (· + 1)

/-- The opening pattern of the promise category: word boundary,
opening, a lazy gap, then avenue, door or possibilit forms with a
trailing word boundary. -/
def openingHedgeAux : Nat → Bool → List Char → Nat
  | 0, _, _ => 0
  | _, _, [] => 0
  | fuel + 1, prevWord, c :: cs =>
    if !prevWord && "opening".data.isPrefixOf (c :: cs) then
      match lazyGapFind openingHedgeKeys ((c :: cs).drop 7) with
      | some n => 1 + openingHedgeAux fuel true (cs.drop (7 + n - 1))
      | none => openingHedgeAux fuel (isWordChar c) cs
    else openingHedgeAux fuel (isWordChar c) cs

/-- Count for the opening pattern. -/
def openingHedgeCount (l : List Char) : Nat := openingHedgeAux l.length false l

/-- HEDGE_LEXICON of the source as per-category counts over the
lowercased text; the matched example substrings collected by the source
are dropped here because the assembled report only uses the counts. -/
def hedgePatternCounts (t : List Char) : List (String × Nat) :=
  [("ability",
    boundedCount "able to".data t + boundedCount "capable of".data t + canHedgeCount t),
   ("permission",
    boundedCount "permitting".data t + boundedCount "allowing".data t +
    boundedCount "enabling".data t),
   ("promise",
    boundedCount "promising".data t + boundedCount "promise".data t +
    boundedCount "paving the way".data t + openingHedgeCount t),
   ("epistemic",
    boundedCount "may".data t + boundedCount "might".data t +
    boundedAltCount (["suggests", "suggesting", "suggest"].map String.data) t +
    boundedAltCount (["indicates", "indicate", "indicating"].map String.data) t +
    boundedCount "potentially".data t + boundedCount "possibly".data t +
    boundedCount "likely".data t),
   ("approximation",
    boundedCount "approximately".data t + boundedCount "about".data t +
    countSub "~".data t + boundedCount "nearly".data t + boundedCount "roughly".data t),
   ("tentative",
    boundedCount "to our knowledge".data t + boundedCount "believe".data t +
    boundedCount "consistent with".data t + boundedCount "compatible with".data t)]

/-- detect_hedges of the source: total count and per-category counts
over the lowercased text. -/
def detect_hedges (text : String) : Nat × List (String × Nat) :=
  let cats := hedgePatternCounts (lowerChars text.data)
  ((cats.map Prod.snd).foldl (· + ·) 0, cats)

/-- hedge_density of the source: hedges per sentence with the
denominator floored at one, rounded to two decimals. -/
def hedge_density (text : String) (n_sentences : Nat) : ℚ :=
  roundQ 2 (((detect_hedges text).1 : ℚ) / ((max n_sentences 1 : Nat) : ℚ))

/-! Information units (count_information_units, info_density_profile). -/

/-- Keep the first occurrence of each string, in order; used to model
accumulation into a Python set whose cardinality is read off. -/
def dedupFirstAux (seen : List String) : List String → List String
  | [] => []
  | x :: xs =>
    if seen.contains x then dedupFirstAux seen xs
    else x :: dedupFirstAux (x :: seen) xs

/-- Deduplicate keeping first occurrences. -/
def dedupFirst (l : List String) : List String := dedupFirstAux [] l

/-- Rule one shape: a whole word of two to six characters, an uppercase
letter then uppercase letters or digits (the anchored acronym pattern
can only match whole word-character runs of this shape). -/
def acroShape (w : List Char) : Bool :=
  2 ≤ w.length && w.length ≤ 6 &&
  (match w with
   | c :: rest => c.isUpper && rest.all (fun d => d.isUpper || d.isDigit)
   | [] => false)

/-- The unit alternatives of the numeric pattern of rule two, with the
two class characters and the greedy optional plurals expanded in
matching order. -/
def numUnitAlts : List (List Char) :=
  ["-fold", "×fold", "cm⁻¹", "nm", "MHz", "ms", "μs", "%",
   "samples", "sample", "biomarkers", "biomarker"].map String.data

/-- Rule two, first pattern: digits, optional decimal part, optional
whitespace, then a unit alternative; the capture is the whole match. -/
def matchNumUnit (_ : List Char) (rest : List Char) : Option (Nat × List Char) :=
  match rest with
  | c :: cs =>
    if c.isDigit then
      let r1 := cs.dropWhile Char.isDigit
      let r2 :=
        match r1 with
        | '.' :: d :: tail => if d.isDigit then tail.dropWhile Char.isDigit else r1
        | _ => r1
      let r3 := r2.dropWhile isPySpace
      match dropAlt? numUnitAlts r3 with
      | some r4 => some (rest.length - r4.length, rest.take (rest.length - r4.length))
      | none => none
    else none
  | [] => none

/-- Case-insensitive literal drop (for the patterns compiled with the
ignore-case flag; the pattern side is written lowercased). -/
def dropLitCI? : List Char → List Char → Option (List Char)
  | [], rest => some rest
  | _, [] => none
  | p :: ps, c :: cs => if p = c.toLower then dropLitCI? ps cs else none

/-- Case-insensitive first-alternative drop. -/
def dropAltCI? (alts : List (List Char)) (l : List Char) : Option (List Char) :=
  match alts with
  | [] => none
  | a :: as =>
    match dropLitCI? a l with
    | some r => some r
    | none => dropAltCI? as l

/-- Rule two, second pattern (ignore-case): more than, greater than or
a greater sign, optional whitespace, digits; capture is the whole
match. -/
def matchCmpNum (_ : List Char) (rest : List Char) : Option (Nat × List Char) :=
  match dropAltCI? (["more than", "greater than", ">"].map String.data) rest with
  | some r1 =>
    let r2 := r1.dropWhile isPySpace
    match r2 with
    | d :: ds =>
      if d.isDigit then
        let r3 := ds.dropWhile Char.isDigit
        some (rest.length - r3.length, rest.take (rest.length - r3.length))
      else none
    | [] => none
  | none => none

/-- Rule three shape: an uppercase letter then at least three lowercase
letters, as a whole whitespace-separated word. -/
def properShape (w : List Char) : Bool :=
  match w with
  | c :: rest => c.isUpper && rest.all Char.isLower && 3 ≤ rest.length
  | [] => false

/-- Hyphenated-compound scanning: parse the hyphen-separated alpha
groups following a first group. -/
def chainGroupsFuel : Nat → List Char → (List (List Char) × List Char)
  | 0, l => ([], l)
  | fuel + 1, '-' :: c :: cs =>
    if c.isAlpha then
      let g := c :: cs.takeWhile Char.isAlpha
      let (gs, rem) := chainGroupsFuel fuel (cs.drop (g.length - 1))
      (g :: gs, rem)
    else ([], '-' :: c :: cs)
  | _, rest => ([], rest)

/-- Parse the hyphen-plus-alpha-group extensions of a chain. -/
def chainGroups (l : List Char) : (List (List Char) × List Char) :=
  chainGroupsFuel l.length l

/-- Join a first group with following groups, hyphen-separated. -/
def joinChain (g0 : List Char) (gs : List (List Char)) : List Char :=
  g0 ++ (gs.map (fun g => '-' :: g)).flatten

/-- Try the hyphenated-compound pattern at the head (the leading word
boundary is checked by the caller): a chain of alpha groups joined by
single hyphens; if a word character follows the last group the trailing
boundary fails there and the engine backtracks one group, which then
ends before a hyphen.  Returns the matched text and the remaining text
after the match. -/
def chainAt (l : List Char) : Option (List Char × List Char) :=
  match l with
  | c :: cs =>
    if c.isAlpha then
      let g0 := c :: cs.takeWhile Char.isAlpha
      let (gs, rem) := chainGroups (cs.drop (g0.length - 1))
      match gs with
      | [] => none
      | _ =>
        if (match rem with | d :: _ => isWordChar d | [] => false) then
          match gs.dropLast, gs.getLast? with
          | [], _ => none
          | gs2, some gk => some (joinChain g0 gs2, '-' :: (gk ++ rem))
          | _, none => none
        else some (joinChain g0 gs, rem)
    else none
  | [] => none

/-- All matches of the hyphenated-compound pattern over a text,
scanning left to right and resuming after each match. -/
def hyphenChainsAux : Nat → Bool → List Char → List (List Char)
  | 0, _, _ => []
  | _, _, [] => []
  | fuel + 1, prevWord, c :: cs =>
    match (if prevWord then none else chainAt (c :: cs)) with
    | some (m, rem) =>
      m :: hyphenChainsAux fuel true (cs.drop ((c :: cs).length - rem.length - 1))
    | none => hyphenChainsAux fuel (isWordChar c) cs

/-- The hyphenated compounds matched in a text. -/
def hyphenChains (l : List Char) : List (List Char) := hyphenChainsAux l.length false l

/-- The adjective alternatives of the domain-phrase pattern of rule
five. -/
def domainAdjAlts : List (List Char) :=
  ["spectral", "temporal", "spatial", "optical", "molecular", "vibrational",
   "clinical", "biological", "quantum"].map String.data

/-- The noun alternatives of rule five; true marks the two alternatives
carrying a trailing word-star, which absorb the rest of the word. -/
def domainNounAlts : List (List Char × Bool) :=
  [("resolution".data, false), ("fidelity".data, false), ("bandwidth".data, false),
   ("sensitivity".data, false), ("interference".data, false),
   ("fingerprint".data, true), ("analysis".data, false), ("imaging".data, false),
   ("detection".data, false), ("scattering".data, false), ("tissue".data, false),
   ("sample".data, true)]

/-- Find the first noun alternative matching at the head
(case-insensitive): a word-star alternative extends over the remaining
word characters; a plain alternative needs a trailing word boundary,
else the next alternative is tried.  Returns the consumed length. -/
def nounAltLen? (alts : List (List Char × Bool)) (l : List Char) : Option Nat :=
  match alts with
  | [] => none
  | (a, star) :: as =>
    match dropLitCI? a l with
    | some r =>
      if star then some (a.length + (r.takeWhile isWordChar).length)
      else if (match r with | d :: _ => isWordChar d | [] => false) then nounAltLen? as l
      else some a.length
    | none => nounAltLen? as l

/-- Rule five (ignore-case): word boundary, a domain adjective,
whitespace, a domain noun, word boundary; the capture is the lowercased
space-joined pair of groups, as the source builds it. -/
def matchDomainNP (rev : List Char) (rest : List Char) : Option (Nat × List Char) :=
  if (match rev with | c :: _ => isWordChar c | [] => false) then none
  else
    match dropAltCI? domainAdjAlts rest with
    | some r1 =>
      let adjLen := rest.length - r1.length
      match dropWs1? r1 with
      | some r2 =>
        match nounAltLen? domainNounAlts r2 with
        | some nlen =>
          some (rest.length - r2.length + nlen,
            lowerChars (rest.take adjLen) ++ ' ' :: lowerChars (r2.take nlen))
        | none => none
      | none => none
    | none => none

/-- count_information_units of the source: the union of the five
extraction rules as a deduplicated tag list; the count is its size.
The source stores the tags in a Python set, whose iteration order is
arbitrary; the first-insertion order is fixed here. -/
def count_information_units (sentence : String) : Nat × List String :=
  let acro := (wordRuns sentence.data).filterMap (fun w =>
    if acroShape w && !(["A", "I", "We"].contains (String.mk w)) then
      some ("ACRO:" ++ String.mk w)
    else none)
  let num1 := (finditer matchNumUnit sentence.data).map
    (fun p => "NUM:" ++ String.mk (pyStrip p.2))
  let num2 := (finditer matchCmpNum sentence.data).map
    (fun p => "NUM:" ++ String.mk (pyStrip p.2))
  let prop := (pyWords sentence.data).enum.filterMap (fun p =>
    if 0 < p.1 && properShape p.2 then some ("PROP:" ++ String.mk p.2) else none)
  let hyph := (hyphenChains sentence.data).filterMap (fun m =>
    if 6 ≤ m.length then some ("HYPH:" ++ String.mk (lowerChars m)) else none)
  let np := (finditer matchDomainNP sentence.data).map
    (fun p => "NP:" ++ String.mk p.2)
  let items := dedupFirst (acro ++ num1 ++ num2 ++ prop ++ hyph ++ np)
  (items.length, items)

/-- One per-sentence entry of the details list of
info_density_profile. -/
structure SentDetail where
  sentence : String
  iu_count : Nat
  iu_items : List String
deriving Repr, DecidableEq

/-- The result triple of info_density_profile. -/
structure ProfileOut where
  densities : List Nat
  shape : String
  details : List SentDetail
deriving Repr, DecidableEq

/-- The shape classification of info_density_profile as a function of
the per-sentence IU count list, which is all the source branches read:
the empty guard, the short guard, then spiky, front-loaded,
back-loaded, bell, flat, in the exact source order with its
integer-floor slicing; the float literals of the source are the
rationals three tenths, seven tenths and twelve tenths. -/
def profileShape (densities : List Nat) : String :=
  if densities.isEmpty then "empty"
  else
    let n := densities.length
    if n < 3 then "short"
    else
      let mx := densities.foldl max 0
      let peak := densities.indexOf mx
      if 6 < mx then "spiky"
      else if (peak : ℚ) ≤ (n : ℚ) * (3 / 10) then "front-loaded"
      else if (peak : ℚ) ≥ (n : ℚ) * (7 / 10) then "back-loaded"
      else
        let mid := (densities.drop (n / 3)).take (2 * n / 3 - n / 3)
        let midAvg : ℚ := ((mid.foldl (· + ·) 0 : Nat) : ℚ) / ((max mid.length 1 : Nat) : ℚ)
        let edgeSum : Nat :=
          (densities.take (n / 3)).foldl (· + ·) 0 + (densities.drop (2 * n / 3)).foldl (· + ·) 0
        let edgeAvg : ℚ := (edgeSum : ℚ) / ((max (n - mid.length) 1 : Nat) : ℚ)
        if midAvg > edgeAvg * (12 / 10) then "bell"
        else "flat"

/-- The per-sentence IU counts of a text, via the sentence splitter. -/
def profileDensities (text : String) : List Nat :=
  (split_sentences text).map (fun s => (count_information_units s).1)

/-- info_density_profile of the source: per-sentence IU counts from the
sentence splitter, the shape classification of that count list, and
the per-sentence details (for an empty sentence list the source
returns early with empty lists and the shape empty, which coincides
with the general form). -/
def info_density_profile (text : String) : ProfileOut :=
  { densities := profileDensities text
    shape := profileShape (profileDensities text)
    details := (split_sentences text).map (fun s =>
      (⟨String.mk (s.data.take 80), (count_information_units s).1,
        (count_information_units s).2⟩ : SentDetail)) }

/-- Modelled from the specification wording of the shape
classification, for the refinement comparison of claim C5: shape short
whenever the sentence count is under three, else spiky when the maximum
exceeds six, else front-loaded or back-loaded by the position of the
first maximum, else bell when the middle-third mean exceeds 1.2 times
the mean of the remaining two thirds, else flat — amended with the
empty case the code adds before the short guard. -/
def specShapeAmended (d : List Nat) : String :=
  if d.length = 0 then "empty"
  else if d.length < 3 then "short"
  else if 6 < d.foldl max 0 then "spiky"
  else
    let n := d.length
    let peak := d.indexOf (d.foldl max 0)
    if (peak : ℚ) ≤ (3 / 10) * (n : ℚ) then "front-loaded"
    else if (peak : ℚ) ≥ (7 / 10) * (n : ℚ) then "back-loaded"
    else
      let mid := (d.drop (n / 3)).take (2 * n / 3 - n / 3)
      let midMean : ℚ := ((natSum mid : Nat) : ℚ) / ((mid.length : Nat) : ℚ)
      let edgeMean : ℚ :=
        ((natSum (d.take (n / 3)) + natSum (d.drop (2 * n / 3)) : Nat) : ℚ) /
          (((n - mid.length : Nat) : Nat) : ℚ)
      if midMean > (12 / 10) * edgeMean then "bell" else "flat"

/-! Domain-shift markers (DOMAIN_SHIFT_PATTERNS,
detect_domain_shifts). -/

/-- A segment pattern: a sequence of alternative-literal groups matched
one after the other, case-insensitively.  The greedy optional letters
of the source patterns are expanded with the longer alternative first;
every group whose alternatives overlap is in final position, so
committing to the first alternative is faithful. -/
def dropSegsCI? (segs : List (List (List Char))) (l : List Char) : Option (List Char) :=
  match segs with
  | [] => some l
  | seg :: rest =>
    match dropAltCI? seg l with
    | some r => dropSegsCI? rest r
    | none => none

/-- DOMAIN_SHIFT_PATTERNS of the source as segment patterns. -/
def domainShiftSegs : List (List (List (List Char))) :=
  [[["as a ".data],
    (["medical", "clinical", "practical", "industrial"].map String.data),
    [" ".data],
    (["application", "demonstration", "validation"].map String.data)],
   [["for ".data],
    (["clinical", "practical", "industrial", "medical"].map String.data),
    [" ".data],
    (["use", "deployment", "validation", "translation"].map String.data)],
   [["in ".data],
    (["clinical", "in vivo", "ex vivo", "human", "patient"].map String.data),
    [" ".data],
    (["settings", "setting", "samples", "sample", "tests", "test",
      "studies", "trials", "trial"].map String.data)],
   [["toward".data], ["s".data, "".data], [" ".data],
    (["clinical", "practical", "medical", "real-world"].map String.data)],
   [["we ".data], (["further", "also"].map String.data), [" ".data],
    (["demonstrate", "show", "apply", "validate"].map String.data)]]

/-- A matcher for one segment pattern; the capture is the matched
text. -/
def matchSegs (segs : List (List (List Char))) (_ : List Char) (rest : List Char) :
    Option (Nat × List Char) :=
  match dropSegsCI? segs rest with
  | some r => some (rest.length - r.length, rest.take (rest.length - r.length))
  | none => none

/-- detect_domain_shifts of the source: every match of every pattern,
pattern-major, with matched text and character offset (the redundant
pattern-source field of the marker records is dropped). -/
def detect_domain_shifts (text : String) : List (String × Nat) :=
  (domainShiftSegs.map (fun segs =>
    (finditer (matchSegs segs) text.data).map (fun p => (String.mk p.2, p.1)))).flatten

/-! N-gram mining (tokenize, STOPWORDS, extract_ngrams). -/

/-- tokenize of the source: over the lowercased text, tokens are
maximal lowercase-and-hyphen runs trimmed of trailing hyphens, kept
when at least three characters long (the greedy pattern with a final
letter); scanning resumes after each token. -/
def tokenizeAux : Nat → List Char → List (List Char)
  | 0, _ => []
  | _, [] => []
  | fuel + 1, c :: cs =>
    if c.isLower then
      let run := c :: cs.takeWhile (fun d => d.isLower || d = '-')
      let tok := (run.reverse.dropWhile (fun d => d = '-')).reverse
      if 3 ≤ tok.length then tok :: tokenizeAux fuel (cs.drop (tok.length - 1))
      else tokenizeAux fuel (cs.drop (run.length - 1))
    else tokenizeAux fuel cs

/-- tokenize of the source. -/
def tokenize (text : String) : List String :=
  (tokenizeAux text.data.length (lowerChars text.data)).map String.mk

/-- STOPWORDS of the source (n-gram mining). -/
def STOPWORDS : List String :=
  ["the", "and", "for", "that", "this", "with", "from", "are", "was",
   "were", "been", "being", "have", "has", "had", "its", "our", "their",
   "which", "these", "those", "but", "not", "can", "also", "such",
   "than", "into", "over", "between", "through", "using", "via",
   "here", "both", "well", "each", "more", "most", "however",
   "yet", "although", "while", "when", "where", "how", "what"]

/-- extract_ngrams of the source: every window of n tokens, skipping
windows containing a stopword or a token under three characters,
space-joined. -/
def extract_ngrams (text : String) (n : Nat) : List String :=
  let tokens := tokenize text
  (List.range (tokens.length + 1 - n)).filterMap (fun i =>
    let gram := (tokens.drop i).take n
    if gram.any (fun t => STOPWORDS.contains t || t.length < 3) then none
    else some (String.intercalate " " gram))

/-! Topic alignment (compute_topic_alignment). -/

/-- Python round(x, k) over the reals, for the values produced with
math.log. -/
noncomputable def roundR (k : Nat) (x : ℝ) : ℝ := (round (x * 10 ^ k) : ℤ) / 10 ^ k

/-- The per-keyword detail record of compute_topic_alignment; the
coverage field of the source is a display string formatting
doc_frequency over the corpus size and is dropped here. -/
structure KwDetail where
  doc_frequency : Nat
  total_mentions : Nat
  tf_idf : ℝ

/-- The per-keyword statistics of compute_topic_alignment: document
frequency by case-insensitive substring, total mentions by
non-overlapping count, and the guarded tf-idf product rounded to two
decimals. -/
noncomputable def kwStats (texts : List String) (kw : String) : KwDetail :=
  let kwl := lowerChars kw.data
  let df : Nat := (texts.filter (fun t => hasSub kwl (lowerChars t.data))).length
  let tf : Nat := (texts.map (fun t => countSub kwl (lowerChars t.data))).foldl (· + ·) 0
  let idf : ℝ := if 0 < df then Real.log ((texts.length : ℝ) / (1 + (df : ℝ))) else 0
  let ti : ℝ := if 0 < df then (tf : ℝ) * idf else 0
  ⟨df, tf, roundR 2 ti⟩

/-- compute_topic_alignment of the source.  The keyword detail is a
Python dict keyed by the keyword, so duplicate keywords collapse to one
entry; the overall score is the rounded, capped normalization of the
summed rounded tf-idf values against the heuristic maximum. -/
noncomputable def compute_topic_alignment (manuscript_keywords abstract_texts : List String) :
    ℝ × List (String × KwDetail) :=
  if abstract_texts.length = 0 then (0, [])
  else
    let scores := (dedupFirst manuscript_keywords).map
      (fun kw => (kw, kwStats abstract_texts kw))
    let maxPossible : ℝ := (abstract_texts.length : ℝ) * Real.log (abstract_texts.length : ℝ)
    let total : ℝ := (scores.map (fun p => p.2.tf_idf)).foldl (· + ·) 0
    let pct : ℝ := min 100 ((total / max maxPossible 1) * 100)
    (roundR 1 pct, scores)

/-! Adaptive keyword extraction (the stopword set, the term extractor
and extract_keywords_from_semantic_core of the source). -/

/-- The keyword stopword set of the source (named with a leading
underscore there). -/
def KW_STOPS : List String :=
  ["the", "for", "with", "from", "this", "and", "not", "while", "here",
   "what", "how", "but", "also", "only", "most", "each", "both", "all",
   "can", "may", "will", "should", "must", "has", "had", "was", "were",
   "are", "been", "being", "more", "less", "than", "does", "into", "over",
   "between", "through", "about", "under", "after", "before", "where",
   "abstract", "introduction", "results", "discussion", "methods",
   "references", "figure", "table", "source", "context", "metric",
   "value", "priority", "claim", "section", "supporting", "strength",
   "gap", "key", "result", "impact", "novelty", "mechanism", "one",
   "fact", "base", "logic", "graph", "narrative", "inventory",
   "sentence", "coverage", "check", "paragraph",
   "covers", "converts", "produces", "enables", "first", "novel",
   "using", "based", "compared", "across", "applied", "measured",
   "demonstrated", "achieved", "show", "shows", "shown", "report",
   "strong", "moderate", "weak", "direct", "indirect", "overall",
   "high", "low", "new", "large", "small", "per", "non", "pre", "sub",
   "auto", "epi", "fig", "ref", "see", "note", "data", "ext",
   "experimental", "commercial", "standard", "single", "no",
   "off", "on", "focus", "side", "optimization", "resolution",
   "sample", "imaging", "detection", "analysis", "technique",
   "approach", "system", "mode", "band", "range", "type", "step",
   "level", "rate", "field", "point", "time", "speed", "limit",
   "raman", "spectral", "spectrum", "spectra", "clinical", "laser",
   "optical", "signal", "fluorescence", "microscopy", "microscope",
   "wavelength", "power", "pulse", "pulses", "measurement",
   "state-of-the-art", "high-quality", "high-speed", "high-fidelity",
   "high-performance", "high-throughput", "high-resolution", "high-sensitivity",
   "label-free", "real-time", "large-scale", "long-term", "low-cost"]

/-- A whole word of the shape removed by the table-row cleaning pass:
F or C followed by one or two digits. -/
def isFCWord (w : List Char) : Bool :=
  match w with
  | c :: rest =>
    (c = 'F' || c = 'C') && 1 ≤ rest.length && rest.length ≤ 2 && rest.all Char.isDigit
  | [] => false

/-- Remove whole words of the table-row-marker shape (the anchored
pattern can only delete entire word-character runs of that shape). -/
def removeFCFuel : Nat → List Char → List Char
  | 0, l => l
  | _, [] => []
  | fuel + 1, c :: cs =>
    if isWordChar c then
      let w := c :: cs.takeWhile isWordChar
      (if isFCWord w then [] else w) ++ removeFCFuel fuel (cs.drop (w.length - 1))
    else c :: removeFCFuel fuel cs

/-- Remove whole words of the table-row-marker shape. -/
def removeFCWords (l : List Char) : List Char := removeFCFuel l.length l

/-- Replace pipe, star-glyph and hash characters by spaces. -/
def replaceTableChars (l : List Char) : List Char :=
  l.map (fun c => if c = '|' || c = '★' || c = '#' then ' ' else c)

/-- Collapse every whitespace run to a single space. -/
def collapseWsFuel : Nat → List Char → List Char
  | 0, l => l
  | _, [] => []
  | fuel + 1, c :: cs =>
    if isPySpace c then ' ' :: collapseWsFuel fuel (cs.drop (cs.takeWhile isPySpace).length)
    else c :: collapseWsFuel fuel cs

/-- Collapse every whitespace run to a single space. -/
def collapseWs (l : List Char) : List Char := collapseWsFuel l.length l

/-- The pre-cleaning pass of the term extractor, in source order. -/
def kwClean (l : List Char) : List Char :=
  collapseWs (replaceTableChars (removeFCWords l))

/-- Acronym shape of the term extractor: three to six characters, an
uppercase letter then uppercase letters or digits, as a whole word. -/
def acroKwShape (w : List Char) : Bool :=
  3 ≤ w.length && w.length ≤ 6 &&
  (match w with
   | c :: rest => c.isUpper && rest.all (fun d => d.isUpper || d.isDigit)
   | [] => false)

/-- Python str.split on a separator character. -/
def splitOn (sep : Char) : List Char → List (List Char)
  | [] => [[]]
  | c :: cs =>
    if c = sep then [] :: splitOn sep cs
    else
      match splitOn sep cs with
      | g :: gs => (c :: g) :: gs
      | [] => [[c]]

/-- The acronym emissions of the term extractor over cleaned text. -/
def acroTerms (l : List Char) : List String :=
  (wordRuns l).filterMap (fun w =>
    if acroKwShape w && !KW_STOPS.contains (String.mk (lowerChars w)) then
      some (String.mk w)
    else none)

/-- The hyphenated-compound emissions of the term extractor: length at
least six, not every hyphen-separated part a stopword, and the
lowercased term itself not a stopword. -/
def hyphTerms (l : List Char) : List String :=
  (hyphenChains l).filterMap (fun m =>
    let parts := splitOn '-' (lowerChars m)
    if 6 ≤ m.length && !(parts.all (fun p => KW_STOPS.contains (String.mk p))) then
      let normalized := String.mk (lowerChars m)
      if !KW_STOPS.contains normalized then some normalized else none
    else none)

/-- The proper-noun emissions of the term extractor: an uppercase
letter then at least three lowercase letters, as a whole word. -/
def propTerms (l : List Char) : List String :=
  (wordRuns l).filterMap (fun w =>
    if properShape w && !KW_STOPS.contains (String.mk (lowerChars w)) then
      some (String.mk w)
    else none)

/-- The stream of terms the three findall loops of the term extractor
count, in emission order over the cleaned text. -/
def termStream (text : String) : List String :=
  let clean := kwClean text.data
  acroTerms clean ++ hyphTerms clean ++ propTerms clean

/-- Add one occurrence of a key to an insertion-ordered counter. -/
def incrCounter (counter : List (String × Nat)) (k : String) : List (String × Nat) :=
  if counter.any (fun p => p.1 = k) then
    counter.map (fun p => if p.1 = k then (p.1, p.2 + 1) else p)
  else counter ++ [(k, 1)]

/-- Add several occurrences of a key to an insertion-ordered counter
(creating the key even for zero occurrences, as Counter addition
does). -/
def incrCounterBy (counter : List (String × Nat)) (k : String) (n : Nat) : List (String × Nat) :=
  if counter.any (fun p => p.1 = k) then
    counter.map (fun p => if p.1 = k then (p.1, p.2 + n) else p)
  else counter ++ [(k, n)]

/-- The term extractor of the source (there named with a leading
underscore): accumulate the term stream of a block of text into the
given counter. -/
def extract_terms (text : String) (counter : List (String × Nat)) : List (String × Nat) :=
  (termStream text).foldl incrCounter counter

/-- The span matched by a lazy section pattern: from the first
occurrence of the section marker, minimally up to the next occurrence
of the stop marker or to the end anchor (which is also just before a
final newline). -/
def sectionSpan (marker : List Char) (stop : Option (List Char)) (content : List Char) :
    Option (List Char) :=
  match findSub marker content with
  | none => none
  | some i =>
    let bodyStart := i + marker.length
    let dollar :=
      if (match content.getLast? with | some d => d = '\n' | none => false)
          && bodyStart ≤ content.length - 1 then
        content.length - 1
      else content.length
    let e :=
      match stop with
      | some sp =>
        match findSub sp (content.drop bodyStart) with
        | some j => min (bodyStart + j) dollar
        | none => dollar
      | none => dollar
    some ((content.drop i).take (e - i))

/-- The Fact Base section search of the source. -/
def factSection (content : List Char) : Option (List Char) :=
  sectionSpan "## 1. Fact Base".data (some "## 2.".data) content

/-- The Claims section search of the source. -/
def claimsSection (content : List Char) : Option (List Char) :=
  sectionSpan "## 3. Claims".data none content

/-- The Logic Graph section search of the source. -/
def logicSection (content : List Char) : Option (List Char) :=
  sectionSpan "## 2. Logic Graph".data (some "## 3.".data) content

/-- The stream of terms accumulated from the three structured sections,
in the order the source processes them: Fact Base, Claims, Logic
Graph. -/
def candidatesStream (content : String) : List String :=
  (match factSection content.data with
   | some t => termStream (String.mk t)
   | none => []) ++
  (match claimsSection content.data with
   | some t => termStream (String.mk t)
   | none => []) ++
  (match logicSection content.data with
   | some t => termStream (String.mk t)
   | none => [])

/-- The fallback trigger: fewer than five distinct candidates after the
structured sections. -/
def fallbackFires (content : String) : Bool :=
  (dedupFirst (candidatesStream content)).length < 5

/-- The full accumulated stream: when the fallback fires, the whole
document is scanned into the same counter. -/
def fullCandidatesStream (content : String) : List String :=
  if fallbackFires content then candidatesStream content ++ termStream content
  else candidatesStream content

/-- Python str.isupper: at least one cased character and every cased
character uppercase (ASCII). -/
def pyIsUpper (s : String) : Bool :=
  s.data.any Char.isAlpha && s.data.all (fun c => !c.isAlpha || c.isUpper)

/-- The type weight and whole-document frequency of a candidate term:
case-sensitive count for acronym-cased terms (weight three), otherwise
case-insensitive count (weight two when hyphenated, else one). -/
def termWeightFreq (content : String) (term : String) : ℚ × Nat :=
  if pyIsUpper term then (3, countSub term.data content.data)
  else if term.data.contains '-' then
    (2, countSub (lowerChars term.data) (lowerChars content.data))
  else (1, countSub (lowerChars term.data) (lowerChars content.data))

/-- The scored candidate list: for each counter key in insertion order,
the term, its score weight times the maximum of whole-document and
section-local frequency, and the whole-document frequency. -/
def scoredTerms (content : String) : List (String × ℚ × Nat) :=
  (dedupFirst (fullCandidatesStream content)).map (fun term =>
    let sf := (fullCandidatesStream content).count term
    let wf := termWeightFreq content term
    (term, wf.1 * ((max wf.2 sf : Nat) : ℚ), wf.2))

/-- Sort scored candidates by descending score; the source sort is
stable, which the index tiebreak reproduces. -/
def sortScoredDesc (scored : List (String × ℚ × Nat)) : List (String × ℚ × Nat) :=
  (List.insertionSort
    (fun (a b : Nat × (String × ℚ × Nat)) =>
      a.2.2.1 > b.2.2.1 ∨ (a.2.2.1 = b.2.2.1 ∧ a.1 ≤ b.1))
    scored.enum).map Prod.snd

/-- extract_keywords_from_semantic_core of the source: clean and scan
the structured sections, fall back to the whole document when fewer
than five distinct candidates survive, rank by weighted frequency and
return the top fifteen terms. -/
def extract_keywords_from_semantic_core (content : String) : List String :=
  ((sortScoredDesc (scoredTerms content)).map (fun p => p.1)).take 15

/-! The main analysis (analyze of the source).  Input records model the
loaded YAML entries: an empty full_abstract models a missing or empty
field (the truthiness test of the source), an empty sentences list a
missing or empty sentence list, and a zero sentence_count a missing or
zero count (the or-chain of the source treats them alike).  Unhandled
Python exceptions are modelled by the error cases of PyError; the
guarded empty-input exit with its printed diagnostic is noAbstracts.
Print statements, file paths and the fixed strings of the report (the
meta block and the recommendation sentences, whose only varying content
is kept as a numeric field) are not modelled. -/

/-- One input abstract record. -/
structure AbstractRecord where
  doi : String
  title : String
  full_abstract : String
  sentences : List String
  sentence_count : Nat
deriving Repr, DecidableEq

/-- The ways a run can abort. -/
inductive PyError where
  | noAbstracts
  | zeroDivision
  | indexError
  | valueError
deriving Repr, DecidableEq

/-- Unguarded Python division: raises on a zero denominator. -/
def pyDivQ (a b : ℚ) : Except PyError ℚ :=
  if b = 0 then .error .zeroDivision else .ok (a / b)

/-- Unguarded Python list indexing: raises out of range. -/
def pyIndex (l : List Nat) (i : Nat) : Except PyError Nat :=
  match l.get? i with
  | some x => .ok x
  | none => .error .indexError

/-- Python min over a list: raises on an empty list. -/
def pyMinNat (l : List Nat) : Except PyError Nat :=
  match l with
  | [] => .error .valueError
  | x :: xs => .ok (xs.foldl min x)

/-- Python max over a list: raises on an empty list. -/
def pyMaxNat (l : List Nat) : Except PyError Nat :=
  match l with
  | [] => .error .valueError
  | x :: xs => .ok (xs.foldl max x)

/-- The sentence count the aggregator reads off a record: the
precomputed count if truthy, else the length of the precomputed
sentence list (the or-chain of the source); it never consults the
sentence splitter. -/
def pySentCount (a : AbstractRecord) : Nat :=
  if a.sentence_count ≠ 0 then a.sentence_count else a.sentences.length

/-- The word-count statistics block. -/
structure WordCountStats where
  mean : ℚ
  median : Nat
  lo : Nat
  hi : Nat
  std : ℝ

/-- The sentence-count statistics block. -/
structure SentCountStats where
  mean : ℚ
  median : Nat
  lo : Nat
  hi : Nat

/-- The sentence_statistics section. -/
structure Stats where
  n_abstracts : Nat
  word_count : WordCountStats
  sentence_count : SentCountStats
  words_per_sentence : ℚ

/-- The statistics section of analyze, with every unguarded division,
indexing, and empty-list min or max made explicit, in evaluation
order. -/
noncomputable def statsOf (valid : List AbstractRecord) : Except PyError Stats := do
  let word_counts := valid.map (fun a => (pyWords a.full_abstract.data).length)
  let sentence_counts := valid.map pySentCount
  let wsorted := List.insertionSort (· ≤ ·) word_counts
  let wmeanRaw ← pyDivQ (natSum word_counts : ℚ) (word_counts.length : ℚ)
  let wmedian ← pyIndex wsorted (word_counts.length / 2)
  let wlo ← pyMinNat word_counts
  let whi ← pyMaxNat word_counts
  let wmeanInner ← pyDivQ (natSum word_counts : ℚ) (word_counts.length : ℚ)
  let wvar ← pyDivQ
    (ratSum (word_counts.map (fun x => ((x : ℚ) - wmeanInner) ^ 2)))
    (word_counts.length : ℚ)
  let ssorted := List.insertionSort (· ≤ ·) sentence_counts
  let smeanRaw ← pyDivQ (natSum sentence_counts : ℚ) (sentence_counts.length : ℚ)
  let smedian ← pyIndex ssorted (sentence_counts.length / 2)
  let slo ← pyMinNat sentence_counts
  let shi ← pyMaxNat sentence_counts
  let wps := roundQ 1 ((natSum word_counts : ℚ) / ((max (natSum sentence_counts) 1 : Nat) : ℚ))
  pure
    { n_abstracts := valid.length
      word_count :=
        { mean := roundQ 1 wmeanRaw, median := wmedian, lo := wlo, hi := whi
          std := roundR 1 (Real.sqrt ((wvar : ℚ) : ℝ)) }
      sentence_count := { mean := roundQ 1 smeanRaw, median := smedian, lo := slo, hi := shi }
      words_per_sentence := wps }

/-- The hedging section output. -/
structure HedgingOut where
  mean_hedges_per_sentence : ℚ
  total_hedges : Nat
  category_totals : List (String × Nat)
  density_per_abstract : List ℚ
deriving Repr, DecidableEq

/-- The per-record hedge density the aggregator computes: the density
of the full text against the floored record sentence count. -/
def hedgeDensityOfRecord (a : AbstractRecord) : ℚ :=
  hedge_density a.full_abstract (max (pySentCount a) 1)

/-- The hedging section of analyze: per-record densities from the
record sentence counts, grand totals, and category totals accumulated
in lexicon order. -/
def hedgingSection (valid : List AbstractRecord) : HedgingOut :=
  let hedge_densities := valid.map hedgeDensityOfRecord
  let hedge_totals := valid.map (fun a => (detect_hedges a.full_abstract).1)
  let category_totals := valid.foldl
    (fun acc a => ((detect_hedges a.full_abstract).2).foldl
      (fun ac p => incrCounterBy ac p.1 p.2) acc) []
  { mean_hedges_per_sentence :=
      roundQ 2 (ratSum hedge_densities / ((max hedge_densities.length 1 : Nat) : ℚ))
    total_hedges := natSum hedge_totals
    category_totals := category_totals
    density_per_abstract := hedge_densities }

/-- One entry of the info-density examples list. -/
structure DensityExample where
  doi : String
  shape : String
  profile : List Nat
deriving Repr, DecidableEq

/-- The info-density section output; recommendation_peak is the numeric
content of the recommendation string. -/
structure InfoOut where
  mean_iu_per_sentence : ℚ
  max_iu_in_corpus : Nat
  shape_distribution : List (String × Nat)
  examples : List DensityExample
  recommendation_peak : Nat
deriving Repr, DecidableEq

/-- The info-density section of analyze: profiles from the sentence
splitter via info_density_profile, shape tallies in encounter order,
the flattened density list, and the first three examples. -/
def infoSection (valid : List AbstractRecord) : InfoOut :=
  let profiles := valid.map (fun a => (a.doi, info_density_profile a.full_abstract))
  let shapeDist := profiles.foldl (fun acc p => incrCounter acc p.2.shape) []
  let all_densities := (profiles.map (fun p => p.2.densities)).flatten
  let mean_iu := roundQ 1 ((natSum all_densities : ℚ) / ((max all_densities.length 1 : Nat) : ℚ))
  let max_iu := match all_densities with | [] => 0 | x :: xs => xs.foldl max x
  { mean_iu_per_sentence := mean_iu
    max_iu_in_corpus := max_iu
    shape_distribution := shapeDist
    examples := (profiles.take 3).map (fun p =>
      { doi := p.1, shape := p.2.shape, profile := p.2.densities })
    recommendation_peak := max 5 (mean_iu + 3 / 2).floor.toNat }

/-- An opening or closing distribution section. -/
structure PatternsOut where
  distribution : List (String × Nat)
  total : Nat
  dominant : String × Nat
  examples : List (String × String)
deriving Repr, DecidableEq

/-- Add a first example for a label if none is stored yet. -/
def addExample (ex : List (String × String)) (k v : String) : List (String × String) :=
  if ex.any (fun p => p.1 = k) then ex else ex ++ [(k, v)]

/-- Counter.most_common: sort by count descending, ties in insertion
order (the index tiebreak reproduces the stable sort). -/
def mostCommonPairs (counts : List (String × Nat)) : List (String × Nat) :=
  (List.insertionSort
    (fun (a b : Nat × (String × Nat)) =>
      a.2.2 > b.2.2 ∨ (a.2.2 = b.2.2 ∧ a.1 ≤ b.1))
    counts.enum).map Prod.snd

/-- The opening and closing classification loop of analyze: records
with an empty sentence list are skipped; the first sentence is
classified as opening, the last as closing; one truncated example per
label is kept. -/
def classifySection (valid : List AbstractRecord) : PatternsOut × PatternsOut :=
  let step := valid.foldl
    (fun (acc : List (String × Nat) × List (String × Nat) ×
        List (String × String) × List (String × String)) a =>
      match a.sentences with
      | [] => acc
      | s0 :: rest =>
        let first := s0
        let last := (s0 :: rest).getLastD ""
        let op := classify_opening first
        let cl := classify_closing last
        (incrCounter acc.1 op, incrCounter acc.2.1 cl,
         addExample acc.2.2.1 op (String.mk (first.data.take 100)),
         addExample acc.2.2.2 cl (String.mk (last.data.take 100))))
    ([], [], [], [])
  let opC := step.1
  let clC := step.2.1
  ({ distribution := opC
     total := natSum (opC.map Prod.snd)
     dominant := (mostCommonPairs opC).headD ("unknown", 0)
     examples := step.2.2.1 },
   { distribution := clC
     total := natSum (clC.map Prod.snd)
     dominant := (mostCommonPairs clC).headD ("unknown", 0)
     examples := step.2.2.2 })

/-- Frequency pairs of a stream: keys in first-occurrence order with
their counts. -/
def streamCounts (stream : List String) : List (String × Nat) :=
  (dedupFirst stream).map (fun s => (s, stream.count s))

/-- Counter(stream).most_common(k). -/
def mostCommonOf (stream : List String) (k : Nat) : List (String × Nat) :=
  (mostCommonPairs (streamCounts stream)).take k

/-- The domain-shift section output; the fixed recommendation string is
not modelled. -/
structure ShiftOut where
  abstracts_with_markers : Nat
  percentage : ℚ
  examples : List (String × List String)
deriving Repr, DecidableEq

/-- The domain-shift section of analyze. -/
def shiftSection (valid : List AbstractRecord) : ShiftOut :=
  let withMarkers := valid.filter (fun a => !(detect_domain_shifts a.full_abstract).isEmpty)
  { abstracts_with_markers := withMarkers.length
    percentage :=
      roundQ 1 (((100 * withMarkers.length : Nat) : ℚ) / ((max valid.length 1 : Nat) : ℚ))
    examples := (withMarkers.take 5).map (fun a =>
      (a.doi, (detect_domain_shifts a.full_abstract).map Prod.fst)) }

/-- The here-we pivot counts of analyze: how many abstracts contain the
pattern, and the normalized verb tally (no stop-verb filtering
here). -/
def hereWeOf (valid : List AbstractRecord) : Nat × List (String × Nat) :=
  valid.foldl
    (fun acc a =>
      let ms := (finditer matchHereWe a.full_abstract.data).map (fun p =>
        let v0 := String.mk (lowerChars p.2)
        (VERB_NORMALIZE.lookup v0).getD v0)
      match ms with
      | [] => acc
      | _ => (acc.1 + 1, ms.foldl incrCounter acc.2))
    (0, [])

/-- The here-we pivot section output. -/
structure HereWeOut where
  abstracts_with_here_we : Nat
  percentage : ℚ
  verb_after_here_we : List (String × Nat)
deriving Repr, DecidableEq

/-- The assembled report; entries are ordered and shaped as in the
result mapping of the source, with ranks implied by list positions. -/
structure Report where
  n_analyzed : Nat
  n_total : Nat
  verb_frequency : List (String × Nat)
  per_abstract_verbs : List (String × String × List String)
  here_we_pivot : HereWeOut
  bigrams : List (String × Nat)
  trigrams : List (String × Nat)
  sentence_statistics : Stats
  opening_patterns : PatternsOut
  closing_patterns : PatternsOut
  topic_alignment_score : ℝ
  manuscript_keywords : List String
  keyword_detail : List (String × KwDetail)
  discourse_hedging : HedgingOut
  discourse_info_density : InfoOut
  discourse_domain_shift : ShiftOut

/-- analyze of the source: refuse an empty input list with the printed
diagnostic; filter to records with non-empty full text; run every
section; the statistics means are the first unguarded computation and
the here-we percentage the only other one, in that evaluation order. -/
noncomputable def analyze (abstracts : List AbstractRecord)
    (manuscript_keywords : List String) : Except PyError Report := do
  if abstracts.isEmpty then
    .error .noAbstracts
  else
    let valid := abstracts.filter (fun a => a.full_abstract ≠ "")
    let all_verbs := (valid.map (fun a => extract_verbs a.full_abstract)).flatten
    let per_abstract_verbs := valid.map (fun a =>
      (a.doi, String.mk (a.title.data.take 60), extract_verbs a.full_abstract))
    let verb_freq := mostCommonOf all_verbs 20
    let all_bigrams := (valid.map (fun a => extract_ngrams a.full_abstract 2)).flatten
    let all_trigrams := (valid.map (fun a => extract_ngrams a.full_abstract 3)).flatten
    let bigram_freq := mostCommonOf all_bigrams 30
    let trigram_freq := mostCommonOf all_trigrams 20
    let stats ← statsOf valid
    let patterns := classifySection valid
    let alignment := compute_topic_alignment manuscript_keywords
      (valid.map (fun a => a.full_abstract))
    let hedging := hedgingSection valid
    let info := infoSection valid
    let shift := shiftSection valid
    let hereWe := hereWeOf valid
    let hwPct ← pyDivQ ((100 * hereWe.1 : Nat) : ℚ) (valid.length : ℚ)
    pure
      { n_analyzed := valid.length
        n_total := abstracts.length
        verb_frequency := verb_freq
        per_abstract_verbs := per_abstract_verbs
        here_we_pivot :=
          { abstracts_with_here_we := hereWe.1
            percentage := roundQ 1 hwPct
            verb_after_here_we := (mostCommonPairs hereWe.2).take 10 }
        bigrams := bigram_freq.take 20
        trigrams := trigram_freq.take 15
        sentence_statistics := stats
        opening_patterns := patterns.1
        closing_patterns := patterns.2
        topic_alignment_score := alignment.1
        manuscript_keywords := manuscript_keywords
        keyword_detail := alignment.2
        discourse_hedging := hedging
        discourse_info_density := info
        discourse_domain_shift := shift }

/-! Helper lemmas. -/

/-- Half-up rounding is monotone. -/
theorem roundMono {α : Type} [LinearOrderedField α] [FloorRing α] {x y : α}
    (h : x ≤ y) : round x ≤ round y := by
  rw [round_eq, round_eq]
  exact Int.floor_le_floor (by linarith)

/-- The primitive rational floor is the floor of the order
structure. -/
theorem ratFloor_eq (q : ℚ) : q.floor = ⌊q⌋ := by
  rw [Rat.floor_def' q, Rat.floor_def]

/-- The computable rational rounding agrees with half-up rounding. -/
theorem roundQ_eq (k : Nat) (x : ℚ) :
    roundQ k x = ((round (x * 10 ^ k) : ℤ) : ℚ) / 10 ^ k := by
  unfold roundQ
  rw [ratFloor_eq, round_eq]

/-- Rational rounding to k decimals is monotone. -/
theorem roundQ_mono {k : Nat} {x y : ℚ} (h : x ≤ y) : roundQ k x ≤ roundQ k y := by
  rw [roundQ_eq, roundQ_eq]
  have h2 : round (x * 10 ^ k) ≤ round (y * 10 ^ k) :=
    roundMono (mul_le_mul_of_nonneg_right h (by positivity))
  exact (div_le_div_iff_of_pos_right (by positivity)).mpr (Int.cast_le.mpr h2)

/-- Real rounding to k decimals is monotone. -/
theorem roundR_mono {k : Nat} {x y : ℝ} (h : x ≤ y) : roundR k x ≤ roundR k y := by
  unfold roundR
  have h2 : round (x * 10 ^ k) ≤ round (y * 10 ^ k) :=
    roundMono (mul_le_mul_of_nonneg_right h (by positivity))
  exact (div_le_div_iff_of_pos_right (by positivity)).mpr (Int.cast_le.mpr h2)

/-- The scan emits matches at positions at least the start index, in
strictly increasing position order. -/
theorem scanIter_pos_bounds (m : List Char → List Char → Option (Nat × List Char)) :
    ∀ (fuel : Nat) (rev rest : List Char) (i : Nat),
      (∀ x ∈ scanIter m fuel rev rest i, i ≤ x.1) ∧
      List.Pairwise (fun a b => a.1 < b.1) (scanIter m fuel rev rest i) := by
  intro fuel
  induction fuel with
  | zero => intro rev rest i; simp [scanIter]
  | succ fuel ih =>
    intro rev rest i
    match rest with
    | [] => simp [scanIter]
    | c :: cs =>
      simp only [scanIter]
      cases h : m rev (c :: cs) with
      | none =>
        exact ⟨fun x hx => le_trans (by omega) ((ih _ _ _).1 x hx), (ih _ _ _).2⟩
      | some p =>
        obtain ⟨n, cap⟩ := p
        constructor
        · intro x hx
          rcases List.mem_cons.mp hx with hx | hx
          · subst hx; exact le_refl _
          · exact le_trans (by omega) ((ih _ _ _).1 x hx)
        · refine List.Pairwise.cons (fun y hy => ?_) (ih _ _ _).2
          have hy2 := (ih _ _ _).1 y hy
          show i < y.1
          omega

/-- filterMap preserves strict position increase when the mapping keeps
first components. -/
theorem pairwise_fst_filterMap {α β : Type} {l : List (Nat × α)}
    {f : Nat × α → Option (Nat × β)}
    (hf : ∀ p q, f p = some q → q.1 = p.1)
    (h : List.Pairwise (fun a b => a.1 < b.1) l) :
    List.Pairwise (fun a b => a.1 < b.1) (l.filterMap f) := by
  induction l with
  | nil => simp
  | cons a l ih =>
    rcases List.pairwise_cons.mp h with ⟨ha, hl⟩
    rw [List.filterMap_cons]
    cases hq : f a with
    | none => exact ih hl
    | some q =>
      refine List.pairwise_cons.mpr ⟨fun y hy => ?_, ih hl⟩
      obtain ⟨p, hp, hfp⟩ := List.mem_filterMap.mp hy
      have h1 := hf _ _ hfp
      have h2 := hf _ _ hq
      have h3 := ha p hp
      omega

/-- The per-match step of extract_verbs keeps the match position. -/
theorem processVerb_keeps_pos (p : Nat × List Char) (q : Nat × String)
    (h : (processVerb p.2).map (fun v => (p.1, v)) = some q) : q.1 = p.1 := by
  cases hv : processVerb p.2 with
  | none => rw [hv] at h; exact absurd h (by simp)
  | some v =>
    rw [hv] at h
    simp only [Option.map_some', Option.some.injEq] at h
    rw [← h]

/-- Matches of one pattern family appear in strictly increasing textual
position. -/
theorem verbMatchesOf_pairwise (m : List Char → List Char → Option (Nat × List Char))
    (text : String) :
    List.Pairwise (fun a b => a.1 < b.1) (verbMatchesOf m text) := by
  unfold verbMatchesOf finditer
  exact pairwise_fst_filterMap processVerb_keeps_pos
    (scanIter_pos_bounds m text.data.length [] text.data 0).2

/-! Claim C4. -/

/-- Counterexample to claim C4 as stated: on this text the bare-We
pattern matches design at position 0 and the Here-we pattern matches
demonstrate at position 22, yet extract_verbs emits demonstrate first,
so the output is not ordered by textual match position. -/
theorem C4_counterexample :
    extract_verbs_pos "We design new lasers. Here we demonstrate it." =
      [(22, "demonstrate"), (0, "design")] ∧
    ¬ List.Pairwise (fun a b => a.1 ≤ b.1)
      (extract_verbs_pos "We design new lasers. Here we demonstrate it.") := by
  constructor
  · decide
  · intro h
    rw [show extract_verbs_pos "We design new lasers. Here we demonstrate it." =
        [(22, "demonstrate"), (0, "design")] from by decide] at h
    rcases List.pairwise_cons.mp h with ⟨ha, _⟩
    have := ha (0, "design") (by simp)
    omega

/-- Claim C4 amended: extract_verbs emits the verbs of the four pattern
families one family after the other in the fixed VERB_PATTERNS order,
and within each family the matches appear in strictly increasing
textual position; across families the textual order need not be
preserved. -/
theorem C4_amended (text : String) :
    extract_verbs_pos text =
      verbMatchesOf matchHereWe text ++ verbMatchesOf matchWe text ++
      verbMatchesOf matchSubjectVerb text ++ verbMatchesOf matchImpactGerund text ∧
    List.Pairwise (fun a b => a.1 < b.1) (verbMatchesOf matchHereWe text) ∧
    List.Pairwise (fun a b => a.1 < b.1) (verbMatchesOf matchWe text) ∧
    List.Pairwise (fun a b => a.1 < b.1) (verbMatchesOf matchSubjectVerb text) ∧
    List.Pairwise (fun a b => a.1 < b.1) (verbMatchesOf matchImpactGerund text) := by
  refine ⟨?_, verbMatchesOf_pairwise _ _, verbMatchesOf_pairwise _ _,
    verbMatchesOf_pairwise _ _, verbMatchesOf_pairwise _ _⟩
  simp [extract_verbs_pos, VERB_PATTERNS]

/-! Claim C5. -/

/-- The source shape classification agrees with the specification
classification on every density list (with the empty amendment). -/
theorem profileShape_eq_specShape (d : List Nat) : profileShape d = specShapeAmended d := by
  rcases d with _ | ⟨x, xs⟩
  · rfl
  · simp only [profileShape, specShapeAmended]
    rw [if_neg (show ¬((x :: xs).isEmpty = true) by simp),
      if_neg (show ¬((x :: xs).length = 0) by simp)]
    by_cases h3 : (x :: xs).length < 3
    · rw [if_pos h3, if_pos h3]
    · rw [if_neg h3, if_neg h3]
      by_cases hmx : 6 < (x :: xs).foldl max 0
      · rw [if_pos hmx, if_pos hmx]
      · rw [if_neg hmx, if_neg hmx]
        have hmidlen :
            (((x :: xs).drop ((x :: xs).length / 3)).take
              (2 * (x :: xs).length / 3 - (x :: xs).length / 3)).length =
            2 * (x :: xs).length / 3 - (x :: xs).length / 3 := by
          simp only [List.length_take, List.length_drop]
          omega
        have hmid1 : 1 ≤ 2 * (x :: xs).length / 3 - (x :: xs).length / 3 := by omega
        have hedge1 :
            1 ≤ (x :: xs).length - (2 * (x :: xs).length / 3 - (x :: xs).length / 3) := by omega
        rw [hmidlen, Nat.max_eq_left hmid1, Nat.max_eq_left hedge1]
        simp only [natSum]
        refine if_congr (by rw [mul_comm]) rfl (if_congr (by rw [mul_comm]) rfl ?_)
        exact if_congr (by rw [mul_comm ((12 : ℚ) / 10)]) rfl rfl

/-- Counterexample to claim C5 as stated: the whitespace-only abstract
text splits into zero sentences, so n is 0 and under 3, yet the shape
is empty rather than short (the code guards the empty sentence list
before the short branch). -/
theorem C5_counterexample :
    (split_sentences " ").length < 3 ∧ (info_density_profile " ").shape = "empty" ∧
    (info_density_profile " ").shape ≠ "short" :=
  ⟨by decide, by decide, by decide⟩

/-- Claim C5 amended: for every abstract text the shape classification
of info_density_profile on the per-sentence IU counts is exactly the
specified one — spiky, front-loaded, back-loaded, bell, flat with the
specified thresholds and slicing, short for one or two sentences — with
the amendment that an empty sentence sequence is classified empty, not
short. -/
theorem C5_shape_classification (text : String) :
    (info_density_profile text).shape =
      specShapeAmended ((split_sentences text).map (fun s => (count_information_units s).1)) := by
  simp only [info_density_profile]
  exact profileShape_eq_specShape _

/-! Claims C2 and C6: the error behaviour of analyze. -/

/-- Binding a success just applies the continuation. -/
theorem exbind_ok {ε α β : Type} (a : α) (f : α → Except ε β) :
    ((Except.ok a : Except ε α) >>= f) = f a := rfl

/-- Binding an error short-circuits. -/
theorem exbind_err {ε α β : Type} (e : ε) (f : α → Except ε β) :
    ((Except.error e : Except ε α) >>= f) = .error e := rfl

/-- The unguarded division succeeds on a nonzero denominator. -/
theorem pyDivQ_ok (a : ℚ) {b : ℚ} (h : b ≠ 0) : pyDivQ a b = .ok (a / b) := by
  simp [pyDivQ, h]

/-- The unguarded indexing succeeds in range. -/
theorem pyIndex_ok (l : List Nat) (i : Nat) (h : i < l.length) :
    ∃ x, pyIndex l i = .ok x := by
  refine ⟨l.get ⟨i, h⟩, ?_⟩
  unfold pyIndex
  rw [List.get?_eq_get h]

/-- Python min succeeds on a non-empty list. -/
theorem pyMinNat_ok (l : List Nat) (h : l ≠ []) : ∃ x, pyMinNat l = .ok x := by
  cases l with
  | nil => exact absurd rfl h
  | cons x xs => exact ⟨xs.foldl min x, rfl⟩

/-- Python max succeeds on a non-empty list. -/
theorem pyMaxNat_ok (l : List Nat) (h : l ≠ []) : ∃ x, pyMaxNat l = .ok x := by
  cases l with
  | nil => exact absurd rfl h
  | cons x xs => exact ⟨xs.foldl max x, rfl⟩

/-- Over zero valid abstracts the statistics section divides the
word-count sum by zero. -/
theorem statsOf_nil : statsOf [] = .error .zeroDivision := rfl

/-- Chaining success through a bind. -/
theorem exbind_ok_exists {ε α β : Type} {e : Except ε α} {f : α → Except ε β}
    (h1 : ∃ a, e = .ok a) (h2 : ∀ a, ∃ b, f a = .ok b) : ∃ b, (e >>= f) = .ok b := by
  obtain ⟨a, ha⟩ := h1
  obtain ⟨b, hb⟩ := h2 a
  exact ⟨b, by rw [ha, exbind_ok, hb]⟩

/-- Over at least one valid abstract every unguarded computation of the
statistics section succeeds. -/
theorem statsOf_ok (valid : List AbstractRecord) (h : valid ≠ []) :
    ∃ s, statsOf valid = .ok s := by
  have hlen : valid.length ≠ 0 := fun h0 => h (List.length_eq_zero.mp h0)
  have hwlen : (valid.map (fun a => (pyWords a.full_abstract.data).length)).length = valid.length :=
    List.length_map _ _
  have hslen : (valid.map pySentCount).length = valid.length := List.length_map _ _
  have hwcast : ((valid.map (fun a => (pyWords a.full_abstract.data).length)).length : ℚ) ≠ 0 := by
    rw [hwlen]; exact_mod_cast hlen
  have hscast : ((valid.map pySentCount).length : ℚ) ≠ 0 := by
    rw [hslen]; exact_mod_cast hlen
  have hwne : valid.map (fun a => (pyWords a.full_abstract.data).length) ≠ [] := by
    intro h0
    exact hlen (by rw [← hwlen, h0]; rfl)
  have hsne : valid.map pySentCount ≠ [] := by
    intro h0
    exact hlen (by rw [← hslen, h0]; rfl)
  unfold statsOf
  refine exbind_ok_exists ⟨_, pyDivQ_ok _ hwcast⟩ (fun x1 => ?_)
  refine exbind_ok_exists
    (pyIndex_ok _ _ (by rw [List.length_insertionSort, hwlen]; omega)) (fun x2 => ?_)
  refine exbind_ok_exists (pyMinNat_ok _ hwne) (fun x3 => ?_)
  refine exbind_ok_exists (pyMaxNat_ok _ hwne) (fun x4 => ?_)
  refine exbind_ok_exists ⟨_, pyDivQ_ok _ hwcast⟩ (fun x5 => ?_)
  refine exbind_ok_exists ⟨_, pyDivQ_ok _ hwcast⟩ (fun x6 => ?_)
  refine exbind_ok_exists ⟨_, pyDivQ_ok _ hscast⟩ (fun x7 => ?_)
  refine exbind_ok_exists
    (pyIndex_ok _ _ (by rw [List.length_insertionSort, hslen]; omega)) (fun x8 => ?_)
  refine exbind_ok_exists (pyMinNat_ok _ hsne) (fun x9 => ?_)
  refine exbind_ok_exists (pyMaxNat_ok _ hsne) (fun x10 => ?_)
  exact ⟨_, rfl⟩

/-- Counterexample to claim C2 as stated: a corpus holding one record
without full text has zero valid abstracts, yet the run aborts with an
unhandled division by zero from the word-count mean, not with the
guarded diagnostic that identifies the empty-corpus precondition. -/
theorem C2_counterexample :
    analyze [⟨"d1", "t1", "", [], 0⟩] [] = .error .zeroDivision ∧
    PyError.zeroDivision ≠ PyError.noAbstracts :=
  ⟨rfl, by decide⟩

/-- Claim C2 amended: a run over a corpus with zero valid abstracts
never produces a report; when the corpus is empty it aborts with the
clear empty-input diagnostic, and otherwise it aborts with an unhandled
ZeroDivisionError raised while averaging word counts over zero
records. -/
theorem C2_empty_corpus_abort (abstracts : List AbstractRecord) (kws : List String)
    (h : ∀ a ∈ abstracts, a.full_abstract = "") :
    analyze abstracts kws =
      .error (if abstracts.isEmpty then PyError.noAbstracts else PyError.zeroDivision) := by
  rcases abstracts with _ | ⟨a, as⟩
  · rfl
  · have hv : (a :: as).filter (fun r => decide (r.full_abstract ≠ "")) = [] := by
      rw [List.filter_eq_nil_iff]
      intro b hb
      simp [h b hb]
    simp only [analyze, List.isEmpty_cons, Bool.false_eq_true, if_false, hv, statsOf_nil,
      exbind_err]

/-- Witness for the amended C2 at a concrete one-record corpus with no
full text: the run aborts with the division error. -/
theorem C2_witness :
    (∀ a ∈ [(⟨"d9", "t9", "", [], 0⟩ : AbstractRecord)], a.full_abstract = "") ∧
    analyze [(⟨"d9", "t9", "", [], 0⟩ : AbstractRecord)] ["k"] =
      .error (if ([(⟨"d9", "t9", "", [], 0⟩ : AbstractRecord)] : List AbstractRecord).isEmpty
        then PyError.noAbstracts else PyError.zeroDivision) :=
  ⟨by decide, C2_empty_corpus_abort _ _ (by decide)⟩

/-- Counterexample to claim C6 as stated: on a corpus of two records
without full text the engine raises a division error (the word-count
mean divides by the number of valid abstracts, which is zero and not
floored), so not every mean with a possibly-zero denominator is
guarded. -/
theorem C6_counterexample :
    analyze [⟨"a", "x", "", [], 0⟩, ⟨"b", "y", "", [], 0⟩] ["kw"] = .error .zeroDivision :=
  rfl

/-- Claim C6 amended: every mean or ratio of the engine is guarded
(denominator floored at one or result special-cased) except the
abstract-level statistics means and the here-we percentage, which
divide by the count of valid abstracts; hence whenever the corpus holds
at least one valid abstract no division error is raised and the run
returns a report. -/
theorem C6_division_guards (abstracts : List AbstractRecord) (kws : List String)
    (h : ∃ a ∈ abstracts, a.full_abstract ≠ "") :
    ∃ r, analyze abstracts kws = .ok r := by
  obtain ⟨a, ha, hne⟩ := h
  have habs : ¬(abstracts.isEmpty = true) := by
    cases abstracts with
    | nil => cases ha
    | cons b bs => simp
  have hmem : a ∈ abstracts.filter (fun r => decide (r.full_abstract ≠ "")) :=
    List.mem_filter.mpr ⟨ha, by simp [hne]⟩
  have hv : abstracts.filter (fun r => decide (r.full_abstract ≠ "")) ≠ [] := by
    intro h0
    rw [h0] at hmem
    cases hmem
  obtain ⟨s, hs⟩ := statsOf_ok _ hv
  have hlen : (abstracts.filter (fun r => decide (r.full_abstract ≠ ""))).length ≠ 0 :=
    fun h0 => hv (List.length_eq_zero.mp h0)
  have hcast : ((abstracts.filter (fun r => decide (r.full_abstract ≠ ""))).length : ℚ) ≠ 0 := by
    exact_mod_cast hlen
  simp only [analyze, if_neg habs]
  refine exbind_ok_exists ⟨s, hs⟩ (fun stats => ?_)
  refine exbind_ok_exists ⟨_, pyDivQ_ok _ hcast⟩ (fun pct => ?_)
  exact ⟨_, rfl⟩

/-- Witness for the amended C6 at a concrete corpus holding one valid
abstract: the run returns a report. -/
theorem C6_witness :
    (∃ a ∈ [(⟨"w", "t", "Stuff here.", ["Stuff here."], 1⟩ : AbstractRecord)],
      a.full_abstract ≠ "") ∧
    ∃ r, analyze [(⟨"w", "t", "Stuff here.", ["Stuff here."], 1⟩ : AbstractRecord)] [] = .ok r :=
  ⟨by decide, C6_division_guards _ _ (by decide)⟩

/-! Claim C3. -/

/-- Counterexample to claim C3 as stated: this record has no
precomputed sentences and no precomputed count; the splitter derives
two sentences (and the info-density profiler uses that count, as its
two-entry profile shows), but the hedge-density computation never
invokes the splitter — it floors the missing count to one, producing
density two, whereas the density at the derived count would be one. -/
theorem C3_counterexample :
    (split_sentences "We may win. We might lose.").length = 2 ∧
    (hedgingSection [⟨"d", "t", "We may win. We might lose.", [], 0⟩]).density_per_abstract =
      [2] ∧
    (infoSection [⟨"d", "t", "We may win. We might lose.", [], 0⟩]).examples =
      [⟨"d", "short", [0, 0]⟩] ∧
    hedge_density "We may win. We might lose." 2 ≠ 2 := by
  have htot : (detect_hedges "We may win. We might lose.").1 = 2 := by decide
  have h1 : hedge_density "We may win. We might lose." 1 = 2 := by
    unfold hedge_density
    rw [htot, roundQ_eq, round_eq]
    norm_num
  have h2 : hedge_density "We may win. We might lose." 2 = 1 := by
    unfold hedge_density
    rw [htot, roundQ_eq, round_eq]
    norm_num
  refine ⟨by decide, ?_, by decide, ?_⟩
  · have hdr : hedgeDensityOfRecord ⟨"d", "t", "We may win. We might lose.", [], 0⟩ =
        hedge_density "We may win. We might lose." 1 := by
      unfold hedgeDensityOfRecord
      simp [pySentCount]
    simp only [hedgingSection, List.map]
    rw [hdr, h1]
  · rw [h2]
    norm_num

/-- Claim C3 amended: for a record without precomputed sentences, the
info-density profiler derives sentence boundaries via the sentence
splitter (its stored profile is the per-sentence IU count list over the
split sentences), while the hedge-density computation instead uses the
precomputed sentence_count field floored at one and never consults the
splitter; the two sentence counts need not agree for the same record
within one run. -/
theorem C3_sentence_count_sources (a : AbstractRecord) (h : a.sentences = []) :
    (hedgingSection [a]).density_per_abstract =
      [hedge_density a.full_abstract (max a.sentence_count 1)] ∧
    (infoSection [a]).examples =
      [⟨a.doi,
        profileShape ((split_sentences a.full_abstract).map
          (fun s => (count_information_units s).1)),
        (split_sentences a.full_abstract).map (fun s => (count_information_units s).1)⟩] := by
  have hsc : pySentCount a = a.sentence_count := by
    unfold pySentCount
    rw [h]
    by_cases h0 : a.sentence_count ≠ 0
    · rw [if_pos h0]
    · rw [if_neg h0]
      simp only [List.length_nil]
      omega
  constructor
  · simp only [hedgingSection, List.map, hedgeDensityOfRecord, hsc]
  · simp only [infoSection, List.take_succ_cons, List.take_nil, List.map_cons, List.map_nil,
      info_density_profile, profileDensities]

/-- Witness for the amended C3 at a concrete record with no sentence
metadata. -/
theorem C3_witness :
    ((⟨"dw", "tw", "We may win. We might lose.", [], 0⟩ : AbstractRecord).sentences = []) ∧
    ((hedgingSection [(⟨"dw", "tw", "We may win. We might lose.", [], 0⟩ : AbstractRecord)]).density_per_abstract =
      [hedge_density "We may win. We might lose." (max 0 1)] ∧
     (infoSection [(⟨"dw", "tw", "We may win. We might lose.", [], 0⟩ : AbstractRecord)]).examples =
      [⟨"dw",
        profileShape ((split_sentences "We may win. We might lose.").map
          (fun s => (count_information_units s).1)),
        (split_sentences "We may win. We might lose.").map
          (fun s => (count_information_units s).1)⟩]) :=
  ⟨rfl, C3_sentence_count_sources ⟨"dw", "tw", "We may win. We might lose.", [], 0⟩ rfl⟩

/-! Claim C7. -/

/-- Counterexample to claim C7 as stated: label-free is a hyphenated
term of length at least six whose parts label and free are not both
stopwords, yet the term extractor drops it, because the whole
lowercased term is itself in the stopword set; so having one
non-stopword part does not suffice for a hyphenated candidate to be
kept. -/
theorem C7_counterexample :
    (extract_terms "label-free" []).lookup "label-free" = none ∧
    ¬ (splitOn '-' (lowerChars "label-free".data)).all
        (fun p => KW_STOPS.contains (String.mk p)) = true ∧
    6 ≤ "label-free".length :=
  ⟨by decide, by decide, by decide⟩

/-- Claim C7 amended: a hyphenated candidate matched in the cleaned
text is kept by the term extractor if and only if it is at least six
characters long, not every hyphen-separated part of its lowercased form
is a stopword, and the whole lowercased term is not itself in the
stopword set. -/
theorem C7_hyphen_stopword_filter (text m : String)
    (hm : m.data ∈ hyphenChains (kwClean text.data)) :
    (String.mk (lowerChars m.data) ∈ hyphTerms (kwClean text.data)) ↔
      (6 ≤ m.length ∧
       ¬ (splitOn '-' (lowerChars m.data)).all (fun p => KW_STOPS.contains (String.mk p)) = true ∧
       ¬ KW_STOPS.contains (String.mk (lowerChars m.data)) = true) := by
  have hlen : ∀ u : List Char, (lowerChars u).length = u.length := fun u => List.length_map _ _
  have hml : m.length = m.data.length := rfl
  constructor
  · intro hmem
    obtain ⟨w, hw, hfw⟩ := List.mem_filterMap.mp hmem
    by_cases h1 : (6 ≤ w.length && !(splitOn '-' (lowerChars w)).all
        (fun p => KW_STOPS.contains (String.mk p))) = true
    · rw [if_pos h1] at hfw
      by_cases h2 : (!KW_STOPS.contains (String.mk (lowerChars w))) = true
      · rw [if_pos h2] at hfw
        have heq : lowerChars w = lowerChars m.data :=
          congrArg String.data (Option.some.inj hfw)
        rw [Bool.and_eq_true, decide_eq_true_eq, Bool.not_eq_true'] at h1
        rw [Bool.not_eq_true'] at h2
        rw [heq] at h1 h2
        refine ⟨?_, ?_, ?_⟩
        · have hw2 : w.length = m.data.length := by rw [← hlen w, heq, hlen]
          omega
        · rw [h1.2]
          exact Bool.false_ne_true
        · rw [h2]
          exact Bool.false_ne_true
      · rw [if_neg h2] at hfw
        cases hfw
    · rw [if_neg h1] at hfw
      cases hfw
  · rintro ⟨h1, h2, h3⟩
    have hc1 : (6 ≤ m.data.length && !(splitOn '-' (lowerChars m.data)).all
        (fun p => KW_STOPS.contains (String.mk p))) = true := by
      rw [Bool.and_eq_true, decide_eq_true_eq, Bool.not_eq_true']
      refine ⟨by omega, ?_⟩
      cases hall : (splitOn '-' (lowerChars m.data)).all (fun p => KW_STOPS.contains (String.mk p))
      · rfl
      · exact absurd hall h2
    have hc2 : (!KW_STOPS.contains (String.mk (lowerChars m.data))) = true := by
      rw [Bool.not_eq_true']
      cases hct : KW_STOPS.contains (String.mk (lowerChars m.data))
      · rfl
      · exact absurd hct h3
    refine List.mem_filterMap.mpr ⟨m.data, hm, ?_⟩
    simp only [hc1, hc2, if_true]

/-- Witness for the amended C7: near-field is matched in the text, its
part near is not a stopword, the whole term is not a stopword, and the
characterization confirms it is kept. -/
theorem C7_witness :
    ("near-field".data ∈ hyphenChains (kwClean "a near-field probe".data)) ∧
    ((String.mk (lowerChars "near-field".data) ∈ hyphTerms (kwClean "a near-field probe".data)) ↔
      (6 ≤ "near-field".length ∧
       ¬ (splitOn '-' (lowerChars "near-field".data)).all
          (fun p => KW_STOPS.contains (String.mk p)) = true ∧
       ¬ KW_STOPS.contains (String.mk (lowerChars "near-field".data)) = true)) :=
  ⟨by decide, C7_hyphen_stopword_filter "a near-field probe" "near-field" (by decide)⟩

/-! Claim C10. -/

/-- Claim C10: when the fallback fires, the whole-document scan
accumulates into the same counter, so every term frequency in the final
candidate counter is its structured-section count plus its
whole-document count, and exactly this combined frequency enters the
ranking score weight times the maximum of document frequency and
section frequency. -/
theorem C10_fallback_double_count (content : String) (t : String)
    (h : fallbackFires content = true) :
    (fullCandidatesStream content).count t =
      (candidatesStream content).count t + (termStream content).count t ∧
    scoredTerms content = (dedupFirst (fullCandidatesStream content)).map (fun term =>
      (term, (termWeightFreq content term).1 *
        (((max (termWeightFreq content term).2
          ((candidatesStream content).count term + (termStream content).count term)) : Nat) : ℚ),
        (termWeightFreq content term).2)) := by
  have hstream : fullCandidatesStream content = candidatesStream content ++ termStream content := by
    unfold fullCandidatesStream
    rw [if_pos h]
  have hcount : ∀ u, (fullCandidatesStream content).count u =
      (candidatesStream content).count u + (termStream content).count u := by
    intro u
    rw [hstream, List.count_append]
  refine ⟨hcount t, ?_⟩
  unfold scoredTerms
  simp only [hcount]

/-- Witness for C10 at a concrete sectionless document, where the
fallback fires and the counter of the term SRS doubles. -/
theorem C10_witness :
    fallbackFires "SRS pump-probe SRS" = true ∧
    (fullCandidatesStream "SRS pump-probe SRS").count "SRS" =
      (candidatesStream "SRS pump-probe SRS").count "SRS" +
        (termStream "SRS pump-probe SRS").count "SRS" :=
  ⟨by decide, (C10_fallback_double_count "SRS pump-probe SRS" "SRS" (by decide)).1⟩

/-- Claim C8: classify_closing on the example sentence returns
paradigm; the rules are tried in the fixed order pathway, promise,
paradigm, application, quantitative-recap, outlook, other with the
first match winning, so the paradigm rule (matched by establishes)
fires even though the later application rule would also match (via
sensing inside biosensing); the two earlier rules do not match. -/
theorem C8_closing_first_match_paradigm :
    classify_closing "This establishes a new paradigm for label-free biosensing." = "paradigm" ∧
    closingParadigm
      (pyStrip (lowerChars "This establishes a new paradigm for label-free biosensing.".data)) = true ∧
    closingApplication
      (pyStrip (lowerChars "This establishes a new paradigm for label-free biosensing.".data)) = true ∧
    closingPathway
      (pyStrip (lowerChars "This establishes a new paradigm for label-free biosensing.".data)) = false ∧
    closingPromise
      (pyStrip (lowerChars "This establishes a new paradigm for label-free biosensing.".data)) = false :=
  ⟨rfl, rfl, rfl, rfl, rfl⟩

/-! Claim C9. -/

/-- Claim C9: with the sentence count held fixed, a text whose hedge
matches are those of another text plus one additional occurrence has a
hedge density at least as large: the density is the rounded quotient of
the total by the floored sentence count, and rounding is monotone. -/
theorem C9_hedge_density_monotone (t1 t2 : String) (n : Nat)
    (h : (detect_hedges t2).1 = (detect_hedges t1).1 + 1) :
    hedge_density t1 n ≤ hedge_density t2 n := by
  unfold hedge_density
  apply roundQ_mono
  have hd : (0 : ℚ) < ((max n 1 : Nat) : ℚ) := by
    have : (1 : Nat) ≤ max n 1 := le_max_right n 1
    exact_mod_cast Nat.lt_of_lt_of_le Nat.zero_lt_one this
  refine (div_le_div_iff_of_pos_right hd).mpr ?_
  exact_mod_cast Nat.le_of_lt (by omega)

/-- Witness for C9 at concrete texts: the second text has exactly one
more hedge match (may) than the first, and its density is no
smaller. -/
theorem C9_witness :
    (detect_hedges "this may work.").1 = (detect_hedges "it is clear.").1 + 1 ∧
    hedge_density "it is clear." 1 ≤ hedge_density "this may work." 1 :=
  ⟨by decide, C9_hedge_density_monotone "it is clear." "this may work." 1 (by decide)⟩

/-! Claim C1. -/

/-- Counterexample to claim C1 as stated: for the non-empty keyword
list [laser] and the non-empty corpus [laser], the inverse-document
frequency log(1/2) is negative, the heuristic maximum collapses to the
floor of one, and the overall topic-alignment score is -69, strictly
below zero; the score is not bounded below by zero. -/
theorem C1_counterexample : (compute_topic_alignment ["laser"] ["laser"]).1 < 0 := by
  have hd : dedupFirst ["laser"] = ["laser"] := by decide
  have hdf : ((["laser"] : List String).filter
      (fun t => hasSub (lowerChars "laser".data) (lowerChars t.data))).length = 1 := by decide
  have htf : (((["laser"] : List String).map
      (fun t => countSub (lowerChars "laser".data) (lowerChars t.data))).foldl (· + ·) 0) = 1 := by
    decide
  have hks : kwStats ["laser"] "laser" = ⟨1, 1, roundR 2 (-Real.log 2)⟩ := by
    simp only [kwStats, hdf, htf]
    norm_num
    rw [one_div, Real.log_inv]
  have hr2 : roundR 2 (-Real.log 2) = -69 / 100 := by
    unfold roundR
    have hrnd : round (-Real.log 2 * 10 ^ 2) = -69 := by
      rw [round_eq]
      rw [Int.floor_eq_iff]
      have hlo := Real.log_two_gt_d9
      have hhi := Real.log_two_lt_d9
      constructor
      · push_cast
        nlinarith
      · push_cast
        nlinarith
    rw [hrnd]
    norm_num
  simp only [compute_topic_alignment, hd, List.map_cons, List.map_nil, hks, hr2]
  norm_num [Real.log_one]
  have hfin : roundR 1 (-69 : ℝ) = -69 := by
    unfold roundR
    rw [show ((-69 : ℝ) * 10 ^ 1) = ((-690 : ℤ) : ℝ) by norm_num, round_intCast]
    norm_num
  rw [hfin]
  norm_num

/-- Claim C1 amended: the overall topic-alignment score never exceeds
100 for any keyword list and any corpus, empty or not (the empty-corpus
branch returns zero and the general branch caps the normalized total at
100 before the monotone rounding); the lower bound of the claim does
not hold, only the upper one. -/
theorem C1_alignment_bounded_above (kws texts : List String) :
    (compute_topic_alignment kws texts).1 ≤ 100 := by
  by_cases h : texts.length = 0
  · simp only [compute_topic_alignment, if_pos h]
    norm_num
  · simp only [compute_topic_alignment, if_neg h]
    have h100 : roundR 1 (100 : ℝ) = 100 := by
      unfold roundR
      rw [show ((100 : ℝ) * 10 ^ 1) = ((1000 : ℤ) : ℝ) by norm_num, round_intCast]
      norm_num
    calc roundR 1 (min 100 _) ≤ roundR 1 100 := roundR_mono (min_le_left _ _)
      _ = 100 := h100

end AbstractAnalysis
